import Mathlib

/-!
# node_exporter collectors: netstat, netstat_pod, gpu

A shallow embedding of `collector/netstat_linux.go`, `collector/netstat_pod.go`
and `collector/gpu.go`, followed by the properties proved about it.

Conventions of the embedding.

* A Go `string` is a sequence of bytes (`GoString`); `len`, indexing and slicing
  count bytes, so "character" below always means one byte.
* An `io.Reader` wrapped in a `bufio.Scanner` is a `Scanner`: the outcomes of the
  successive calls of `Scan()` and the value of `Err()` once `Scan()` has failed.
  `NewScanner` gives the scanner of a reader that delivers a text and then the end of
  the file, with the 64 KiB limit of the scanner's buffer.
* A Go map is the list of its entries, keys pairwise distinct; Go leaves the
  iteration order open and the list order is one admissible order.
* Counters of type `int` are natural numbers: one increment per token read stays far
  below `2^63`.  Values of type `uint` and `uint64` are natural numbers below `2^64`;
  the conversions `int(..)` and `float64(..)` are explicit.
* A run-time panic (index or slice out of range, nil dereference) is an explicit
  outcome.
-/

namespace Collector

/-! ## Go strings and the `strings` / `strconv` functions used -/

/-- A Go string: an immutable sequence of bytes. -/
abbrev GoString := List UInt8

/-- Bytes of an ASCII string literal of the source. -/
def ascii (s : String) : GoString := s.data.map (fun c => UInt8.ofNat c.toNat)

/-- Go `strings.Split(s, " ")`: the parts between single space bytes; never empty. -/
def Split : GoString → List GoString
  | [] => [[]]
  | b :: rest =>
    if b = 0x20 then [] :: Split rest
    else
      match Split rest with
      | p :: ps => (b :: p) :: ps
      | [] => [[b]]

/-- Width in bytes of the white-space rune (`unicode.IsSpace`) that starts `s`, `0` when
`s` does not start with one: tab, LF, VT, FF, CR, space, U+0085, U+00A0, U+1680,
U+2000..U+200A, U+2028, U+2029, U+202F, U+205F, U+3000 in UTF-8. -/
def spaceWidth : GoString → Nat
  | 0x09 :: _ => 1
  | 0x0A :: _ => 1
  | 0x0B :: _ => 1
  | 0x0C :: _ => 1
  | 0x0D :: _ => 1
  | 0x20 :: _ => 1
  | 0xC2 :: 0x85 :: _ => 2
  | 0xC2 :: 0xA0 :: _ => 2
  | 0xE1 :: 0x9A :: 0x80 :: _ => 3
  | 0xE2 :: 0x80 :: b :: _ =>
    if (0x80 ≤ b ∧ b ≤ 0x8A) ∨ b = 0xA8 ∨ b = 0xA9 ∨ b = 0xAF then 3 else 0
  | 0xE2 :: 0x81 :: 0x9F :: _ => 3
  | 0xE3 :: 0x80 :: 0x80 :: _ => 3
  | _ => 0

/-- Closes the field being read: an empty one yields nothing. -/
def flushField (cur : GoString) : List GoString :=
  if cur = [] then [] else [cur]

/-- Loop of `strings.Fields`: `skip` counts the bytes still to drop of a multi-byte
white-space rune, `cur` is the field being read. -/
def fieldsLoop : Nat → GoString → GoString → List GoString
  | _, cur, [] => flushField cur
  | skip + 1, cur, _ :: rest => fieldsLoop skip cur rest
  | 0, cur, b :: rest =>
    if spaceWidth (b :: rest) = 0 then fieldsLoop 0 (cur ++ [b]) rest
    else flushField cur ++ fieldsLoop (spaceWidth (b :: rest) - 1) [] rest

/-- Go `strings.Fields(s)`: the maximal runs of bytes free of white space. -/
def Fields (s : GoString) : List GoString := fieldsLoop 0 [] s

/-- Go `strings.Index(s, c)` for a one-byte `c`: position of the first occurrence,
`none` for Go's `-1`. -/
def Index (c : UInt8) : GoString → Option Nat
  | [] => none
  | b :: rest => if b = c then some 0 else (Index c rest).map (· + 1)

/-- Upper-cases one ASCII byte. -/
def upperByte (b : UInt8) : UInt8 :=
  if 0x61 ≤ b ∧ b ≤ 0x7A then b - 0x20 else b

/-- Go `strings.ToUpper(s)`.  A string of ASCII bytes takes Go's byte-wise path; any
other string is mapped rune by rune through `unicode.ToUpper`, supplied as
`unicodeUpper`. -/
def ToUpper (unicodeUpper : GoString → GoString) (s : GoString) : GoString :=
  if s.all (fun b => b < 0x80) then s.map upperByte else unicodeUpper s

/-- Decimal digits of a natural number, as bytes. -/
def digits (n : Nat) : GoString := (Nat.toDigits 10 n).map (fun c => UInt8.ofNat c.toNat)

/-- Go `strconv.Itoa`. -/
def Itoa : Int → GoString
  | Int.ofNat n => digits n
  | Int.negSucc n => 0x2D :: digits (n + 1)

/-- Go `strings.ReplaceAll(s, "/", "")`. -/
def ReplaceAllSlash (s : GoString) : GoString := s.filter (fun b => b ≠ 0x2F)

/-! ## Go maps -/

/-- A Go map as the list of its entries. -/
abbrev GoMap (K V : Type) := List (K × V)

namespace GoMap

variable {K V : Type} [DecidableEq K]

/-- The empty map. -/
def empty : GoMap K V := []

/-- Lookup `v, ok := m[k]`. -/
def get? : GoMap K V → K → Option V
  | [], _ => none
  | (k', v) :: rest, k => if k' = k then some v else get? rest k

/-- Lookup `m[k]`, with `d` the zero value of the value type. -/
def getD (m : GoMap K V) (k : K) (d : V) : V := (get? m k).getD d

/-- Assignment `m[k] = v`. -/
def set : GoMap K V → K → V → GoMap K V
  | [], k, v => [(k, v)]
  | (k', v') :: rest, k, v => if k' = k then (k, v) :: rest else (k', v') :: set rest k v

/-- Keys of the map. -/
def keys (m : GoMap K V) : List K := m.map Prod.fst

end GoMap

/-! ## Errors and outcomes -/

/-- Go `error` values that occur. -/
inductive GoError
  /-- The error of `fmt.Errorf("mismatch field count mismatch in %s: %s", fileName, protocol)`. -/
  | mismatch (fileName protocol : GoString)
  /-- The error `bufio.ErrTooLong`. -/
  | tooLong
  /-- An error reported by a collaborator (file system, container runtime, GPU library). -/
  | external (code : Nat)
  deriving DecidableEq, Repr

/-- Outcome of a Go function with results `(value, error)`: a run-time panic, or the
returned pair, `none` standing for `nil`. -/
inductive Outcome (α : Type)
  | panic
  | ret (val : Option α) (err : Option GoError)
  deriving DecidableEq, Repr

/-! ## The scanner of the package bufio -/

/-- The constant `bufio.MaxScanTokenSize`, the largest buffer of a scanner. -/
def MaxScanTokenSize : Nat := 64 * 1024

/-- A `bufio.Scanner` with the split function `ScanLines`, as its callers see it. -/
structure Scanner where
  /-- Outcomes of the successive calls of `Scan()`: `some text` when the call returns true
  and `Text()` is `text`, `none` when it returns false, after which `Text()` is empty.  Every
  call after the last of the list returns false. -/
  calls : List (Option GoString)
  /-- Value of `Err()` once a call of `Scan()` has returned false. -/
  err : Option GoError
  deriving DecidableEq, Repr

/-- The function `dropCR` of bufio: a final carriage return is dropped. -/
def dropCR : GoString → GoString
  | [] => []
  | [b] => if b = 0x0D then [] else [b]
  | b :: rest => b :: dropCR rest

/-- The scanner over the text `rest` still to be read, `cur` being the bytes of the current
line already in the buffer.  A line is delivered when its newline lies within the first
`MaxScanTokenSize` bytes of the line; a last line without newline is delivered when it is
shorter than that.  Otherwise the buffer is full: the call fails with `ErrTooLong`, the
next call delivers the buffered bytes, and every later call fails. -/
def scanText : GoString → GoString → Scanner
  | cur, [] =>
    if cur = [] then ⟨[], none⟩
    else if MaxScanTokenSize ≤ cur.length then ⟨[none, some (dropCR cur)], some .tooLong⟩
    else ⟨[some (dropCR cur)], none⟩
  | cur, b :: rest =>
    if MaxScanTokenSize ≤ cur.length then ⟨[none, some (dropCR cur)], some .tooLong⟩
    else if b = 0x0A then
      ⟨some (dropCR cur) :: (scanText [] rest).calls, (scanText [] rest).err⟩
    else scanText (cur ++ [b]) rest

/-- The call `bufio.NewScanner(r)` for a reader that delivers `text` and then the end of the
file. -/
def NewScanner (text : GoString) : Scanner := scanText [] text

/-- A scanner that delivers the lines `lines`, one a call, and then fails or ends with the
error status `err`. -/
def Scanner.ofLines (lines : List GoString) (err : Option GoError) : Scanner :=
  ⟨lines.map some, err⟩

/-- The texts of the calls before the first call of `Scan()` that returns false. -/
def delivered : List (Option GoString) → List GoString
  | some line :: rest => line :: delivered rest
  | _ => []

/-- The lines a loop `for scanner.Scan()` reads. -/
def Scanner.lines (r : Scanner) : List GoString := delivered r.calls

/-! ## netstat_linux.go: parseNetStats -/

/-- The type `map[string]map[string]string`. -/
abbrev NetStats := GoMap GoString (GoMap GoString GoString)

/-- The inner loop `for i := 1; i < len(nameParts); i++` of `parseNetStats`, run over the
indices `is`: `netStats[protocol][nameParts[i]] = valueParts[i]`; `none` is a panic. -/
def zipFields (nameParts valueParts : List GoString) (protocol : GoString) :
    List Nat → NetStats → Option NetStats
  | [], netStats => some netStats
  | i :: is, netStats =>
    match nameParts[i]?, valueParts[i]?, netStats.get? protocol with
    | some name, some value, some fields =>
      zipFields nameParts valueParts protocol is (netStats.set protocol (fields.set name value))
    | _, _, _ => none

/-- Result of one pass through the body of the scan loop. -/
inductive PairStep
  | panic
  | fail (err : GoError)
  | next (netStats : NetStats)
  deriving DecidableEq, Repr

/-- Body of the scan loop of `parseNetStats` for the header line `nameLine` and the text
`valueLine` of the scanner after the second `Scan()`. -/
def pairStep (fileName : GoString) (netStats : NetStats) (nameLine valueLine : GoString) :
    PairStep :=
  let nameParts := Split nameLine
  let valueParts := Split valueLine
  match nameParts[0]? with
  | none => .panic
  | some first =>
    if first.length = 0 then .panic
    else
      let protocol := first.take (first.length - 1)
      let netStats := netStats.set protocol []
      if nameParts.length ≠ valueParts.length then .fail (.mismatch fileName protocol)
      else
        match zipFields nameParts valueParts protocol
            (List.range' 1 (nameParts.length - 1)) netStats with
        | none => .panic
        | some netStats => .next netStats

/-- The scan loop of `parseNetStats` over the remaining calls of `Scan()`; `err` is the value
of `scanner.Err()` returned when the loop ends.  The second `Scan()` of a pass is not
checked: when it fails the value text is empty, and the loop goes on with the next call. -/
def scanPairs (fileName : GoString) (err : Option GoError) :
    List (Option GoString) → NetStats → Outcome NetStats
  | [], netStats => .ret (some netStats) err
  | none :: _, netStats => .ret (some netStats) err
  | [some nameLine], netStats =>
    match pairStep fileName netStats nameLine [] with
    | .panic => .panic
    | .fail e => .ret none (some e)
    | .next netStats => .ret (some netStats) err
  | some nameLine :: none :: rest, netStats =>
    match pairStep fileName netStats nameLine [] with
    | .panic => .panic
    | .fail e => .ret none (some e)
    | .next netStats => scanPairs fileName err rest netStats
  | some nameLine :: some valueLine :: rest, netStats =>
    match pairStep fileName netStats nameLine valueLine with
    | .panic => .panic
    | .fail e => .ret none (some e)
    | .next netStats => scanPairs fileName err rest netStats

/-- The function `parseNetStats(r, fileName)`, `r` given by the scanner built on it. -/
def parseNetStats (r : Scanner) (fileName : GoString) : Outcome NetStats :=
  scanPairs fileName r.err r.calls []

/-! ## netstat_linux.go: parseSNMP6Stats -/

/-- Body of the scan loop of `parseSNMP6Stats` for one line. -/
def snmp6Line (netStats : NetStats) (line : GoString) : NetStats :=
  match Fields line with
  | stat0 :: stat1 :: _ =>
    match Index 0x36 stat0 with
    | some sixIndex =>
      let protocol := stat0.take (sixIndex + 1)
      let name := stat0.drop (sixIndex + 1)
      let netStats :=
        if (netStats.get? protocol).isSome then netStats else netStats.set protocol []
      netStats.set protocol ((netStats.getD protocol []).set name stat1)
    | none => netStats
  | _ => netStats

/-- The function `parseSNMP6Stats(r)`, `r` given by the scanner built on it. -/
def parseSNMP6Stats (r : Scanner) : NetStats × Option GoError :=
  (r.lines.foldl snmp6Line [], r.err)

/-! ## netstat_linux.go: the merge of `netStatCollector.Update` -/

/-- The loop `for k, v := range src { netStats[k] = v }` of `Update`. -/
def mergeStats (netStats src : NetStats) : NetStats :=
  src.foldl (fun acc kv => acc.set kv.1 kv.2) netStats

/-- The keys `protocol + "_" + name` built by the emitting loop of `Update`, with the raw
value of each. -/
def composedEntries (netStats : NetStats) : List (GoString × GoString) :=
  netStats.flatMap (fun pv => pv.2.map (fun nv => (pv.1 ++ ascii "_" ++ nv.1, nv.2)))

/-! ## netstat_linux.go: socket states -/

def UDP : GoString := ascii "udp"
def TCP : GoString := ascii "tcp"
def ESTABLISHED : GoString := ascii "01"
def SYN_SENT : GoString := ascii "02"
def SYN_RCVD : GoString := ascii "03"
def FIIN_WAIT_1 : GoString := ascii "04"
def FN_WAIT_2 : GoString := ascii "05"
def TIME_WAIT : GoString := ascii "06"
def CLOSE_WAIT : GoString := ascii "07"
def CLOSED : GoString := ascii "08"
def LAST_ACK : GoString := ascii "09"
def LISTEN : GoString := ascii "0A"
def CLOSING : GoString := ascii "0B"

/-- The regular expression `^0([0-9]{1}|[A-B]{1})$` applied with `MatchString`. -/
def reg (tok : GoString) : Bool :=
  match tok with
  | [0x30, c] => (0x30 ≤ c && c ≤ 0x39) || (0x41 ≤ c && c ≤ 0x42)
  | _ => false

/-- The statement `socketlist[key]++`. -/
def increment (socketlist : GoMap GoString Nat) (key : GoString) : GoMap GoString Nat :=
  socketlist.set key (socketlist.getD key 0 + 1)

/-- The map `SocketCode` filled by `parseSocketStats`. -/
def hostSocketCode (socket : GoString) : GoMap GoString GoString :=
  (((((((((((GoMap.empty : GoMap GoString GoString).set ESTABLISHED (socket ++ ascii "_ESTABLISHED")).set
    SYN_SENT (socket ++ ascii "_SYN_SENT")).set
    SYN_RCVD (socket ++ ascii "_SYN_RCVD")).set
    FIIN_WAIT_1 (socket ++ ascii "_FIIN_WAIT_1")).set
    FN_WAIT_2 (socket ++ ascii "_FN_WAIT_2")).set
    TIME_WAIT (socket ++ ascii "_TIME_WAIT")).set
    CLOSE_WAIT (socket ++ ascii "_CLOSE_WAIT")).set
    CLOSED (socket ++ ascii "_CLOSED")).set
    LAST_ACK (socket ++ ascii "_LAST_ACK")).set
    LISTEN (socket ++ ascii "_LISTEN")).set
    CLOSING (socket ++ ascii "_CLOSING")

/-- The `switch nameParts[i]` of `parseSocketStats`. -/
def hostSwitch (SocketCode : GoMap GoString GoString) (socketlist : GoMap GoString Nat)
    (tok : GoString) : GoMap GoString Nat :=
  if tok = ESTABLISHED then increment socketlist (SocketCode.getD ESTABLISHED [])
  else if tok = SYN_SENT then increment socketlist (SocketCode.getD SYN_SENT [])
  else if tok = SYN_RCVD then increment socketlist (SocketCode.getD SYN_RCVD [])
  else if tok = FIIN_WAIT_1 then increment socketlist (SocketCode.getD FIIN_WAIT_1 [])
  else if tok = FN_WAIT_2 then increment socketlist (SocketCode.getD FN_WAIT_2 [])
  else if tok = TIME_WAIT then increment socketlist (SocketCode.getD TIME_WAIT [])
  else if tok = CLOSE_WAIT then increment socketlist (SocketCode.getD CLOSE_WAIT [])
  else if tok = CLOSED then increment socketlist (SocketCode.getD CLOSED [])
  else if tok = LAST_ACK then increment socketlist (SocketCode.getD LAST_ACK [])
  else if tok = LISTEN then increment socketlist (SocketCode.getD LISTEN [])
  else if tok = CLOSING then increment socketlist (SocketCode.getD CLOSING [])
  else socketlist

/-- Body of the scan loop of `parseSocketStats` for one line: the tokens at the indices
`0 .. len(nameParts)/2 - 1` are examined in turn. -/
def hostLine (SocketCode : GoMap GoString GoString) (socketlist : GoMap GoString Nat)
    (line : GoString) : GoMap GoString Nat :=
  let nameParts := Fields line
  (nameParts.take (nameParts.length / 2)).foldl
    (fun socketlist tok => if reg tok then hostSwitch SocketCode socketlist tok else socketlist)
    socketlist

/-- The function `parseSocketStats(r, s)`, `r` given by the scanner built on it. -/
def parseSocketStats (unicodeUpper : GoString → GoString) (r : Scanner) (s : GoString) :
    GoMap GoString Nat × Option GoError :=
  let socket := ToUpper unicodeUpper s
  let SocketCode := hostSocketCode socket
  (r.lines.foldl (hostLine SocketCode) [], r.err)

/-! ## netstat_pod.go: socket states of a container -/

def podUDP : GoString := ascii "udp"
def podTCP : GoString := ascii "tcp"
def podESTABLISHED : GoString := ascii "01"
def podSYN_SENT : GoString := ascii "02"
def podSYN_RCVD : GoString := ascii "03"
def podFIIN_WAIT_1 : GoString := ascii "04"
def podFN_WAIT_2 : GoString := ascii "05"
def podTIME_WAIT : GoString := ascii "06"
def podCLOSE_WAIT : GoString := ascii "07"
def podCLOSED : GoString := ascii "08"
def podLAST_ACK : GoString := ascii "09"
def podLISTEN : GoString := ascii "0A"
def podCLOSING : GoString := ascii "0B"

/-- The map `SocketCode` filled by `parsePodSocketStats`. -/
def podSocketCode : GoMap GoString GoString :=
  (((((((((((GoMap.empty : GoMap GoString GoString).set podESTABLISHED (ascii "ESTABLISHED")).set
    podSYN_SENT (ascii "SYN_SENT")).set
    podSYN_RCVD (ascii "SYN_RCVD")).set
    podFIIN_WAIT_1 (ascii "FIIN_WAIT_1")).set
    podFN_WAIT_2 (ascii "FN_WAIT_2")).set
    podTIME_WAIT (ascii "TIME_WAIT")).set
    podCLOSE_WAIT (ascii "CLOSE_WAIT")).set
    podCLOSED (ascii "CLOSED")).set
    podLAST_ACK (ascii "LAST_ACK")).set
    podLISTEN (ascii "LISTEN")).set
    podCLOSING (ascii "CLOSING")

/-- The `switch nameParts[i]` of `parsePodSocketStats`. -/
def podSwitch (SocketCode : GoMap GoString GoString) (socketlist : GoMap GoString Nat)
    (tok : GoString) : GoMap GoString Nat :=
  if tok = podESTABLISHED then increment socketlist (SocketCode.getD podESTABLISHED [])
  else if tok = podSYN_SENT then increment socketlist (SocketCode.getD podSYN_SENT [])
  else if tok = podSYN_RCVD then increment socketlist (SocketCode.getD podSYN_RCVD [])
  else if tok = podFIIN_WAIT_1 then increment socketlist (SocketCode.getD podFIIN_WAIT_1 [])
  else if tok = podFN_WAIT_2 then increment socketlist (SocketCode.getD podFN_WAIT_2 [])
  else if tok = podTIME_WAIT then increment socketlist (SocketCode.getD podTIME_WAIT [])
  else if tok = podCLOSE_WAIT then increment socketlist (SocketCode.getD podCLOSE_WAIT [])
  else if tok = podCLOSED then increment socketlist (SocketCode.getD podCLOSED [])
  else if tok = podLAST_ACK then increment socketlist (SocketCode.getD podLAST_ACK [])
  else if tok = podLISTEN then increment socketlist (SocketCode.getD podLISTEN [])
  else if tok = podCLOSING then increment socketlist (SocketCode.getD podCLOSING [])
  else socketlist

/-- Body of the scan loop of `parsePodSocketStats` for one line. -/
def podLine (SocketCode : GoMap GoString GoString) (socketlist : GoMap GoString Nat)
    (line : GoString) : GoMap GoString Nat :=
  let nameParts := Fields line
  (nameParts.take (nameParts.length / 2)).foldl
    (fun socketlist tok => if reg tok then podSwitch SocketCode socketlist tok else socketlist)
    socketlist

/-- The function `parsePodSocketStats(r)`, `r` given by the scanner built on it. -/
def parsePodSocketStats (r : Scanner) : GoMap GoString Nat × Option GoError :=
  (r.lines.foldl (podLine podSocketCode) [], r.err)


/-! ## Conversions and metrics -/

/-- The conversion `int(n)` of a `uint`: two's complement on 64 bits. -/
def toInt (n : Nat) : Int :=
  if n % 2 ^ 64 < 2 ^ 63 then Int.ofNat (n % 2 ^ 64) else Int.ofNat (n % 2 ^ 64) - 2 ^ 64

/-- A `float64` that results from the conversion of an integer, kept as the integer
converted.  The conversion rounds beyond `2^53`, so distinct integers may stand for one
float; nothing below depends on telling them apart. -/
structure GoFloat where
  ofInt : Int
  deriving DecidableEq, Repr

/-- The conversion `float64(n)`. -/
def float64 (n : Int) : GoFloat := ⟨n⟩

/-- A metric sent on the channel: the fully qualified name and help text of its
descriptor, its label pairs and its value.  The constructors of the metrics library are
represented by the record they are given. -/
structure Metric where
  fqName : GoString
  help : GoString
  labels : List (GoString × GoString)
  value : GoFloat
  deriving DecidableEq, Repr

/-- The function `prometheus.BuildFQName`. -/
def BuildFQName (namespace_ subsystem name : GoString) : GoString :=
  if name = [] then []
  else if namespace_ ≠ [] ∧ subsystem ≠ [] then
    namespace_ ++ ascii "_" ++ subsystem ++ ascii "_" ++ name
  else if namespace_ ≠ [] then namespace_ ++ ascii "_" ++ name
  else if subsystem ≠ [] then subsystem ++ ascii "_" ++ name
  else name

/-! ## netstat_pod.go: the per-container collector -/

def netStatsPodSubsystem : GoString := ascii "netstat_pod"

/-- The files of the host: `none` when `os.Open` fails, otherwise the scanner built on the
file opened. -/
abbrev FileSystem := GoString → Option Scanner

/-- An entry of the container list; only its `ID` is read. -/
structure Container where
  ID : GoString
  deriving DecidableEq, Repr

/-- The type `types.ContainerState` of the container runtime client; only `Pid` is read. -/
structure ContainerState where
  Pid : Int
  deriving DecidableEq, Repr

/-- The type `types.ContainerJSONBase` of the container runtime client: `State` is a pointer,
`none` standing for nil. -/
structure ContainerJSONBase where
  Name : GoString
  State : Option ContainerState
  deriving DecidableEq, Repr

/-- The type `types.ContainerJSON` of the container runtime client: the base is embedded as
a pointer, `none` standing for nil, and `js.Name`, `js.State` are read through it. -/
structure ContainerJSON where
  Base : Option ContainerJSONBase
  deriving DecidableEq, Repr

/-- The zero value `types.ContainerJSON{}`, which the client returns with the error when an
inspect call fails. -/
def ContainerJSON.zero : ContainerJSON := ⟨none⟩

/-- The container runtime client `dockerClient`. -/
structure DockerClient where
  /-- Result of `ContainerList`: the list (`none` for nil) and the error. -/
  ContainerList : Option (List Container) × Option GoError
  /-- Result of `ContainerInspect` for a container id: the value decoded from the answer of
  the runtime, or the error of a failed call, with which the client returns the zero value. -/
  ContainerInspect : GoString → Except GoError ContainerJSON

/-- The function `pidPath(pid)`. -/
def pidPath (pid : Int) : GoString :=
  ascii "/proc/" ++ Itoa pid ++ ascii "/net/tcp"

/-- The function `getPodSocketStats(fileName)`. -/
def getPodSocketStats (fs : FileSystem) (fileName : GoString) :
    Option (GoMap GoString Nat) × Option GoError :=
  match fs fileName with
  | none => (none, some (.external 0))
  | some r => (some (parsePodSocketStats r).1, (parsePodSocketStats r).2)

/-- The metric built in the loop of `getPodTask` for the tally entry `k, v` and the display
name `name` of the container. -/
def podMetric (namespace_ name k : GoString) (v : Nat) : Metric where
  fqName := BuildFQName namespace_ netStatsPodSubsystem k
  help := ascii "pods netstats: number of " ++ k ++ ascii "."
  labels := [(ascii "pod_name", ReplaceAllSlash name)]
  value := float64 (Int.ofNat v)

/-- The task returned by `getPodTask(wg, container, ch)`: the metrics it sends, `none` when it
panics before sending any, on the slice `container.ID[:10]` or on the nil dereference in
`js.State.Pid`.  Both errors are dropped, as in the source: after a failed inspect call `js`
is the zero value. -/
def getPodTask (docker : DockerClient) (fs : FileSystem) (namespace_ : GoString)
    (container : Container) : Option (List Metric) :=
  if container.ID.length < 10 then none
  else
    let js :=
      match docker.ContainerInspect (container.ID.take 10) with
      | .ok js => js
      | .error _ => ContainerJSON.zero
    match js.Base with
    | none => none
    | some base =>
      match base.State with
      | none => none
      | some state =>
        let tcpresult := (getPodSocketStats fs (pidPath state.Pid)).1
        some ((tcpresult.getD []).map (fun kv => podMetric namespace_ base.Name kv.1 kv.2))

/-- The metrics sent by the tasks submitted for the containers.  Each task runs once in a
worker of the pool; a task that panics is recovered by its worker after the deferred
`wg.Done()` and has sent nothing.  The order in which tasks send is left open by the
source, container order is one admissible order. -/
def runTasks (docker : DockerClient) (fs : FileSystem) (namespace_ : GoString) :
    List Container → List Metric
  | [] => []
  | container :: rest =>
    (getPodTask docker fs namespace_ container).getD [] ++ runTasks docker fs namespace_ rest

/-- The function `getPodSocketStatus(ch)`: the metrics sent and the error returned. -/
def getPodSocketStatus (docker : DockerClient) (fs : FileSystem) (namespace_ : GoString) :
    List Metric × Option GoError :=
  match docker.ContainerList.1 with
  | none => ([], none)
  | some containers => (runTasks docker fs namespace_ containers, none)

/-- The method `netstatPodCollector.Update(ch)`: the metrics sent and the error returned. -/
def netstatPodUpdate (docker : DockerClient) (fs : FileSystem) (namespace_ : GoString) :
    List Metric × Option GoError :=
  ((getPodSocketStatus docker fs namespace_).1, none)

/-! ## gpu.go -/

def gpuNamespace : GoString := ascii "node_gpu"

/-- The variable `labels`. -/
def labels : List GoString := [ascii "minor_number", ascii "uuid", ascii "name"]

/-- A device handle of the GPU library: the result of each of its accessors. -/
structure Device where
  MinorNumber : Except GoError Nat
  UUID : Except GoError GoString
  Name : Except GoError GoString
  /-- Total and used memory, in this order. -/
  MemoryInfo : Except GoError (Nat × Nat)
  /-- GPU and memory utilization, in this order. -/
  UtilizationRates : Except GoError (Nat × Nat)
  PowerUsage : Except GoError Nat
  Temperature : Except GoError Nat
  FanSpeed : Except GoError Nat

/-- The GPU library `gonvml` as seen during one `Update`. -/
structure Gonvml where
  DeviceCount : Except GoError Nat
  DeviceHandleByIndex : Nat → Except GoError Device

/-- A logger of the logging library; what it writes is not modelled. -/
structure Logger where
  id : Nat
  deriving DecidableEq, Repr

/-- A `prometheus.GaugeVec`: its name and help text and the gauge of every label
combination set since the last `Reset`. -/
structure GaugeVec where
  name : GoString
  help : GoString
  gauges : GoMap (List GoString) GoFloat

/-- The call `vec.Reset()`. -/
def GaugeVec.Reset (vec : GaugeVec) : GaugeVec := { vec with gauges := [] }

/-- The call `vec.WithLabelValues(lvs...).Set(v)`. -/
def GaugeVec.Set (vec : GaugeVec) (lvs : List GoString) (v : GoFloat) : GaugeVec :=
  { vec with gauges := vec.gauges.set lvs v }

/-- The metric of the gauge of `vec` with the label values `lvs`. -/
def GaugeVec.metric (vec : GaugeVec) (lvs : List GoString) (v : GoFloat) : Metric where
  fqName := BuildFQName gpuNamespace [] vec.name
  help := vec.help
  labels := labels.zip lvs
  value := v

/-- The call `vec.Collect(ch)`: one metric per gauge. -/
def GaugeVec.Collect (vec : GaugeVec) : List Metric :=
  vec.gauges.map (fun g => vec.metric g.1 g.2)

/-- The type `gpuCollector`; `logger` is an interface value, `none` standing for nil. -/
structure gpuCollector where
  numDevices : GoFloat
  usedMemory : GaugeVec
  totalMemory : GaugeVec
  dutyCycle : GaugeVec
  powerUsage : GaugeVec
  temperature : GaugeVec
  fanSpeed : GaugeVec
  logger : Option Logger

/-- The function `newGpuCollector(logger)`.  The composite literal it returns does not set
the field `logger`, which stays nil. -/
def newGpuCollector (_logger : Logger) : gpuCollector where
  numDevices := float64 0
  usedMemory := ⟨ascii "memory_used_bytes", ascii "Memory used by the GPU device in bytes", []⟩
  totalMemory :=
    ⟨ascii "memory_total_bytes", ascii "Total memory of the GPU device in bytes", []⟩
  dutyCycle := ⟨ascii "duty_cycle", ascii ("Percent of time over the past sample period " ++
    "during which one or more kernels were executing on the GPU device"), []⟩
  powerUsage :=
    ⟨ascii "power_usage_milliwatts", ascii "Power usage of the GPU device in milliwatts", []⟩
  temperature :=
    ⟨ascii "temperature_celsius", ascii "Temperature of the GPU device in celsius", []⟩
  fanSpeed := ⟨ascii "fanspeed_percent",
    ascii "Fanspeed of the GPU device as a percent of its maximum", []⟩
  logger := none

/-- A call `level.Error(c.logger).Log(..)`: it ends in a method call on `c.logger` and
panics when the logger is nil (`none`); otherwise execution goes on with `c`. -/
def logError (c : gpuCollector) : Option gpuCollector :=
  match c.logger with
  | none => none
  | some _ => some c

/-- The readings of a device whose three labels were retrieved: every retrieval that
succeeds sets its gauge, a failed one is logged; `none` is a panic. -/
def deviceReadings (dev : Device) (lvs : List GoString) (c : gpuCollector) :
    Option gpuCollector :=
  let memory :=
    match dev.MemoryInfo with
    | .error _ => logError c
    | .ok (totalMemory, usedMemory) =>
      some { c with usedMemory := c.usedMemory.Set lvs (float64 (Int.ofNat usedMemory)),
                    totalMemory := c.totalMemory.Set lvs (float64 (Int.ofNat totalMemory)) }
  memory.bind fun c =>
  let utilization :=
    match dev.UtilizationRates with
    | .error _ => logError c
    | .ok (dutyCycle, _) =>
      some { c with dutyCycle := c.dutyCycle.Set lvs (float64 (Int.ofNat dutyCycle)) }
  utilization.bind fun c =>
  let power :=
    match dev.PowerUsage with
    | .error _ => logError c
    | .ok powerUsage =>
      some { c with powerUsage := c.powerUsage.Set lvs (float64 (Int.ofNat powerUsage)) }
  power.bind fun c =>
  let temp :=
    match dev.Temperature with
    | .error _ => logError c
    | .ok temperature =>
      some { c with temperature := c.temperature.Set lvs (float64 (Int.ofNat temperature)) }
  temp.bind fun c =>
  match dev.FanSpeed with
  | .error _ => logError c
  | .ok fanSpeed => some { c with fanSpeed := c.fanSpeed.Set lvs (float64 (Int.ofNat fanSpeed)) }

/-- Body of the loop `for i := 0; i < int(numDevices); i++` of `Update`; `none` is a panic.
A failed handle or label retrieval is logged and the loop continues. -/
def deviceStep (nvml : Gonvml) (c : gpuCollector) (i : Nat) : Option gpuCollector :=
  match nvml.DeviceHandleByIndex i with
  | .error _ => logError c
  | .ok dev =>
    match dev.MinorNumber with
    | .error _ => logError c
    | .ok minorNumber =>
      let minor := Itoa (toInt minorNumber)
      match dev.UUID with
      | .error _ => logError c
      | .ok uuid =>
        match dev.Name with
        | .error _ => logError c
        | .ok name => deviceReadings dev [minor, uuid, name] c

/-- The device loop of `Update` over the indices `is`; `none` is a panic. -/
def deviceLoop (nvml : Gonvml) : List Nat → gpuCollector → Option gpuCollector
  | [], c => some c
  | i :: is, c =>
    match deviceStep nvml c i with
    | none => none
    | some c => deviceLoop nvml is c

/-- The metric of the gauge `numDevices`. -/
def numDevicesMetric (v : GoFloat) : Metric where
  fqName := BuildFQName gpuNamespace [] (ascii "num_devices")
  help := ascii "Number of GPU devices"
  labels := []
  value := v

/-- Outcome of `gpuCollector.Update(ch)`: a panic after the metrics `sent`, or the return
with the collector afterwards, the metrics sent and the error. -/
inductive UpdateResult
  | panic (sent : List Metric)
  | ret (c : gpuCollector) (sent : List Metric) (err : Option GoError)

/-- The method `gpuCollector.Update(ch)`. -/
def gpuUpdate (nvml : Gonvml) (c : gpuCollector) : UpdateResult :=
  let c := { c with usedMemory := c.usedMemory.Reset, totalMemory := c.totalMemory.Reset,
                    dutyCycle := c.dutyCycle.Reset, powerUsage := c.powerUsage.Reset,
                    temperature := c.temperature.Reset, fanSpeed := c.fanSpeed.Reset }
  match nvml.DeviceCount with
  | .error err =>
    match logError c with
    | none => .panic []
    | some c => .ret c [] (some err)
  | .ok numDevices =>
    let c := { c with numDevices := float64 (Int.ofNat numDevices) }
    match deviceLoop nvml (List.range (toInt numDevices).toNat) c with
    | none => .panic [numDevicesMetric c.numDevices]
    | some c =>
      .ret c (numDevicesMetric c.numDevices :: (c.usedMemory.Collect ++ c.totalMemory.Collect ++
        c.dutyCycle.Collect ++ c.powerUsage.Collect ++ c.temperature.Collect ++
        c.fanSpeed.Collect)) none

/-! ## Vocabulary of the statements -/

/-- The lines of an input made of (header line, value line) pairs. -/
def pairLines : List (GoString × GoString) → List GoString
  | [] => []
  | p :: rest => p.1 :: p.2 :: pairLines rest

/-- First part of a line split on single spaces. -/
def firstToken (line : GoString) : GoString := (Split line).headD []

/-- First part of a header line without its last byte. -/
def protocolOf (header : GoString) : GoString := (firstToken header).dropLast

/-- The text made of the lines, each ended by a newline. -/
def joinLines : List GoString → GoString
  | [] => []
  | line :: rest => line ++ 0x0A :: joinLines rest

/-- The entry a well-formed (header line, value line) pair stands for: the protocol and
the field names zipped with the values, position by position from index 1 on. -/
def pairEntry (p : GoString × GoString) : GoString × GoMap GoString GoString :=
  (protocolOf p.1, (Split p.1).tail.zip (Split p.2).tail)

/-- The eleven state codes, in the order of the constant block. -/
def socketCodes : List GoString :=
  [ESTABLISHED, SYN_SENT, SYN_RCVD, FIIN_WAIT_1, FN_WAIT_2, TIME_WAIT, CLOSE_WAIT, CLOSED,
    LAST_ACK, LISTEN, CLOSING]

/-- The state name under which both parsers count a token: the case of the `switch` the
token selects, looked up in the table `SocketCode` of `parsePodSocketStats`. -/
def codeName (tok : GoString) : Option GoString :=
  if tok = ESTABLISHED then some (ascii "ESTABLISHED")
  else if tok = SYN_SENT then some (ascii "SYN_SENT")
  else if tok = SYN_RCVD then some (ascii "SYN_RCVD")
  else if tok = FIIN_WAIT_1 then some (ascii "FIIN_WAIT_1")
  else if tok = FN_WAIT_2 then some (ascii "FN_WAIT_2")
  else if tok = TIME_WAIT then some (ascii "TIME_WAIT")
  else if tok = CLOSE_WAIT then some (ascii "CLOSE_WAIT")
  else if tok = CLOSED then some (ascii "CLOSED")
  else if tok = LAST_ACK then some (ascii "LAST_ACK")
  else if tok = LISTEN then some (ascii "LISTEN")
  else if tok = CLOSING then some (ascii "CLOSING")
  else none

/-- One tally step for a token: the key `f name` is incremented when the token has a
state name. -/
def countToken (f : GoString → GoString) (socketlist : GoMap GoString Nat) (tok : GoString) :
    GoMap GoString Nat :=
  match codeName tok with
  | some name => increment socketlist (f name)
  | none => socketlist

/-- The map with every key `k` replaced by `f k`. -/
def renameKeys {V : Type} (f : GoString → GoString) (m : GoMap GoString V) : GoMap GoString V :=
  m.map (fun kv => (f kv.1, kv.2))

/-! ## Sample inputs -/

/-- The header line of `/proc/net/tcp`. -/
def tcpHeaderLine : GoString :=
  ascii ("  sl  local_address rem_address   st tx_queue rx_queue tr tm->when retrnsmt" ++
    "   uid  timeout inode")

/-- A line of `/proc/net/tcp` with the state field `st`. -/
def tcpLine (st : String) : GoString :=
  ascii ("   0: 0100007F:0019 00000000:0000 " ++ st ++
    " 00000000:00000000 00:00000000 00000000     0        0 12345 1 0000000000000000 100 0 0 10 0")

/-- A token of 70000 bytes "x", longer than the buffer of a scanner. -/
def longToken : GoString := List.replicate 70000 0x78

/-- Two well-formed (header line, value line) pairs, the second header being longer than the
buffer of a scanner. -/
def longPairs : List (GoString × GoString) :=
  [(ascii "Tcp: InSegs", ascii "Tcp: 10"), (ascii "Udp: " ++ longToken, ascii "Udp: 7")]

/-- A header line "Udp:" followed by a line that starts with a space and is longer than the
buffer of a scanner. -/
def longValueText : GoString := ascii "Udp:" ++ 0x0A :: (0x20 :: longToken)

/-- Three containers of a host. -/
def sampleContainers : List Container :=
  [⟨ascii "aaaaaaaaaaaa0001"⟩, ⟨ascii "bbbbbbbbbbbb0002"⟩, ⟨ascii "cccccccccccc0003"⟩]

/-- A container runtime whose inspect call fails for the second container. -/
def sampleDocker : DockerClient where
  ContainerList := (some sampleContainers, none)
  ContainerInspect := fun id =>
    if id = ascii "aaaaaaaaaa" then .ok ⟨some ⟨ascii "/web", some ⟨4242⟩⟩⟩
    else if id = ascii "cccccccccc" then .ok ⟨some ⟨ascii "/db", some ⟨77⟩⟩⟩
    else .error (.external 1)

/-- A host on which the socket tables of the processes 4242 and 0 can be opened. -/
def sampleFiles : FileSystem := fun fileName =>
  if fileName = ascii "/proc/4242/net/tcp" then
    some (Scanner.ofLines [tcpHeaderLine, tcpLine "0A"] none)
  else if fileName = ascii "/proc/0/net/tcp" then
    some (Scanner.ofLines [tcpHeaderLine, tcpLine "01"] none)
  else none

/-- The six per-device readings. -/
inductive Reading
  | usedMemory
  | totalMemory
  | dutyCycle
  | powerUsage
  | temperature
  | fanSpeed
  deriving DecidableEq, Repr

/-- Result of the retrieval that yields the reading. -/
def Reading.retrieve (m : Reading) (dev : Device) : Except GoError Nat :=
  match m with
  | .usedMemory => dev.MemoryInfo.map (fun p => p.2)
  | .totalMemory => dev.MemoryInfo.map (fun p => p.1)
  | .dutyCycle => dev.UtilizationRates.map (fun p => p.1)
  | .powerUsage => dev.PowerUsage
  | .temperature => dev.Temperature
  | .fanSpeed => dev.FanSpeed

/-- The gauge vector of the collector that holds the reading. -/
def Reading.vec (m : Reading) (c : gpuCollector) : GaugeVec :=
  match m with
  | .usedMemory => c.usedMemory
  | .totalMemory => c.totalMemory
  | .dutyCycle => c.dutyCycle
  | .powerUsage => c.powerUsage
  | .temperature => c.temperature
  | .fanSpeed => c.fanSpeed

/-- The handle and the label values (minor number, UUID, name) of device `i`, when the handle
and the three labels are all retrieved. -/
def deviceLabels (nvml : Gonvml) (i : Nat) : Option (Device × List GoString) :=
  match nvml.DeviceHandleByIndex i with
  | .error _ => none
  | .ok dev =>
    match dev.MinorNumber, dev.UUID, dev.Name with
    | .ok minorNumber, .ok uuid, .ok name =>
      some (dev, [Itoa (toInt minorNumber), uuid, name])
    | _, _, _ => none

/-- The label values of device `i`. -/
def labelsOf (nvml : Gonvml) (i : Nat) : Option (List GoString) :=
  (deviceLabels nvml i).map (fun p => p.2)

/-- The gauge of reading `m` that device `i` sets: its label values and its value. -/
def gaugeOf (nvml : Gonvml) (m : Reading) (i : Nat) : Option (List GoString × GoFloat) :=
  match deviceLabels nvml i with
  | none => none
  | some (dev, lvs) =>
    match m.retrieve dev with
    | .ok v => some (lvs, float64 (Int.ofNat v))
    | .error _ => none

/-- The gauges after device `i`, when `g i` is the gauge the device sets. -/
def recordGauge {K V : Type} [DecidableEq K] (g : Nat → Option (K × V)) (acc : GoMap K V)
    (i : Nat) : GoMap K V :=
  match g i with
  | some e => GoMap.set acc e.1 e.2
  | none => acc

/-- A device with every retrieval succeeding. -/
def sampleDevice (minorNumber : Nat) : Device where
  MinorNumber := .ok minorNumber
  UUID := .ok (ascii "GPU-1f0c")
  Name := .ok (ascii "Tesla")
  MemoryInfo := .ok (16000, 4000)
  UtilizationRates := .ok (35, 10)
  PowerUsage := .ok 70000
  Temperature := .ok 55
  FanSpeed := .ok 40

/-- A GPU library with three devices: device 0 is complete, the name of device 1 and the
temperature of device 2 cannot be retrieved. -/
def sampleNvml : Gonvml where
  DeviceCount := .ok 3
  DeviceHandleByIndex := fun i =>
    if i = 1 then .ok { sampleDevice 1 with Name := .error (.external 3) }
    else if i = 2 then .ok { sampleDevice 2 with Temperature := .error (.external 4) }
    else .ok (sampleDevice i)

/-- A GPU library with one device whose temperature cannot be retrieved. -/
def noTemperatureNvml : Gonvml where
  DeviceCount := .ok 1
  DeviceHandleByIndex := fun i =>
    .ok { sampleDevice i with Temperature := .error (.external 4) }

/-- A GPU library whose device count fails. -/
def brokenNvml : Gonvml where
  DeviceCount := .error (.external 9)
  DeviceHandleByIndex := fun i => .ok (sampleDevice i)

/-- A collector built as `newGpuCollector` builds it, but holding the logger. -/
def loggingCollector (logger : Logger) : gpuCollector :=
  { newGpuCollector logger with logger := some logger }

/-! ## Properties of Go maps -/

namespace GoMap

variable {K V : Type} [DecidableEq K]

theorem get?_set (m : GoMap K V) (k k' : K) (v : V) :
    get? (set m k v) k' = if k = k' then some v else get? m k' := by
  induction m with
  | nil => simp [set, get?]
  | cons e rest ih =>
    obtain ⟨a, b⟩ := e
    by_cases h : a = k
    · subst h
      by_cases h2 : a = k' <;> simp [set, get?, h2]
    · by_cases h2 : a = k'
      · subst h2
        have h3 : ¬ k = a := fun e => h e.symm
        simp [set, get?, h, h3]
      · simp [set, get?, h, h2, ih]

theorem get?_set_self (m : GoMap K V) (k : K) (v : V) : get? (set m k v) k = some v := by
  simp [get?_set]

theorem get?_eq_none_of_not_mem (m : GoMap K V) (k : K) (h : k ∉ keys m) : get? m k = none := by
  induction m with
  | nil => rfl
  | cons e rest ih =>
    obtain ⟨a, b⟩ := e
    simp only [keys, List.map_cons, List.mem_cons, not_or] at h
    have h1 : ¬ a = k := fun e => h.1 e.symm
    simp only [get?, h1, if_false]
    exact ih h.2

theorem mem_of_get? (m : GoMap K V) (k : K) (v : V) (h : get? m k = some v) : (k, v) ∈ m := by
  induction m with
  | nil => simp [get?] at h
  | cons e rest ih =>
    obtain ⟨a, b⟩ := e
    by_cases h1 : a = k
    · subst h1
      simp [get?] at h
      subst h
      exact List.mem_cons_self _ _
    · simp only [get?, h1, if_false] at h
      exact List.mem_cons_of_mem _ (ih h)

theorem get?_of_mem (m : GoMap K V) (hm : (keys m).Nodup) (k : K) (v : V) (h : (k, v) ∈ m) :
    get? m k = some v := by
  induction m with
  | nil => simp at h
  | cons e rest ih =>
    obtain ⟨a, b⟩ := e
    simp only [keys, List.map_cons, List.nodup_cons] at hm
    rcases List.mem_cons.mp h with h1 | h1
    · cases h1
      simp [get?]
    · have hk : k ∈ rest.map Prod.fst := List.mem_map.mpr ⟨(k, v), h1, rfl⟩
      have h2 : ¬ a = k := fun e => hm.1 (e ▸ hk)
      simp only [get?, h2, if_false]
      exact ih hm.2 h1

theorem set_of_not_mem (m : GoMap K V) (k : K) (v : V) (h : k ∉ keys m) :
    set m k v = m ++ [(k, v)] := by
  induction m with
  | nil => rfl
  | cons e rest ih =>
    obtain ⟨a, b⟩ := e
    simp only [keys, List.map_cons, List.mem_cons, not_or] at h
    have h1 : ¬ a = k := fun e => h.1 e.symm
    simp only [set, h1, if_false, List.cons_append]
    rw [ih h.2]

theorem set_append_self (m : GoMap K V) (k : K) (v w : V) (h : k ∉ keys m) :
    set (m ++ [(k, v)]) k w = m ++ [(k, w)] := by
  induction m with
  | nil => simp [set]
  | cons e rest ih =>
    obtain ⟨a, b⟩ := e
    simp only [keys, List.map_cons, List.mem_cons, not_or] at h
    have h1 : ¬ a = k := fun e => h.1 e.symm
    have e := ih h.2
    simp only [List.cons_append, set, h1, if_false]
    exact congrArg _ e

theorem get?_append_self (m : GoMap K V) (k : K) (v : V) (h : k ∉ keys m) :
    get? (m ++ [(k, v)]) k = some v := by
  rw [← set_of_not_mem m k v h]
  exact get?_set_self m k v

theorem keys_set (m : GoMap K V) (k : K) (v : V) :
    keys (set m k v) = if k ∈ keys m then keys m else keys m ++ [k] := by
  induction m with
  | nil => simp [set, keys]
  | cons e rest ih =>
    obtain ⟨a, b⟩ := e
    by_cases h : a = k
    · subst h
      simp [set, keys]
    · have h3 : ¬ k = a := fun e => h e.symm
      simp only [keys] at ih
      simp only [set, h, if_false, keys, List.map_cons, List.mem_cons, h3, false_or, ih]
      split <;> simp

theorem mem_keys_set (m : GoMap K V) (k k' : K) (v : V) :
    k' ∈ keys (set m k v) ↔ k' = k ∨ k' ∈ keys m := by
  rw [keys_set]
  split
  · constructor
    · exact Or.inr
    · rintro (h | h)
      · subst h; assumption
      · exact h
  · simp [or_comm]

theorem nodup_keys_set (m : GoMap K V) (k : K) (v : V) (h : (keys m).Nodup) :
    (keys (set m k v)).Nodup := by
  rw [keys_set]
  split
  · exact h
  · rename_i hk
    exact List.Nodup.append h (List.nodup_singleton k) (by
      intro a ha hb
      simp at hb
      subst hb
      exact hk ha)

theorem get?_isSome_iff (m : GoMap K V) (k : K) : (get? m k).isSome ↔ k ∈ keys m := by
  induction m with
  | nil => simp [get?, keys]
  | cons e rest ih =>
    obtain ⟨a, b⟩ := e
    by_cases h : a = k
    · subst h; simp [get?, keys]
    · have h3 : ¬ k = a := fun e => h e.symm
      simp only [keys] at ih
      simp [get?, keys, h, h3, ih]

end GoMap

/-! ## The scanner -/

theorem delivered_map_some (lines : List GoString) : delivered (lines.map some) = lines := by
  induction lines with
  | nil => rfl
  | cons l rest ih => simp [delivered, ih]

theorem ofLines_lines (lines : List GoString) (err : Option GoError) :
    (Scanner.ofLines lines err).lines = lines :=
  delivered_map_some lines

theorem ascii_length (s : String) : (ascii s).length = s.data.length := by
  unfold ascii
  exact List.length_map _ _

theorem dropCR_of_not_mem (data : GoString) (h : 0x0D ∉ data) : dropCR data = data := by
  induction data with
  | nil => rfl
  | cons b rest ih =>
    cases rest with
    | nil =>
      have hb : ¬ b = 0x0D := fun e => h (by simp [e])
      simp [dropCR, hb]
    | cons c rest =>
      simp only [dropCR]
      rw [ih (fun hm => h (List.mem_cons_of_mem _ hm))]

/-- A line whose newline lies within the buffer is delivered. -/
theorem scanText_line (line : GoString) (hnl : 0x0A ∉ line) (rest : GoString) :
    ∀ cur : GoString, cur.length + line.length < MaxScanTokenSize →
      scanText cur (line ++ 0x0A :: rest)
        = ⟨some (dropCR (cur ++ line)) :: (scanText [] rest).calls, (scanText [] rest).err⟩ := by
  induction line with
  | nil =>
    intro cur h
    have h1 : ¬ MaxScanTokenSize ≤ cur.length := by simp at h; omega
    simp [scanText, h1]
  | cons b line ih =>
    intro cur h
    have h1 : ¬ MaxScanTokenSize ≤ cur.length := by simp at h; omega
    have hb : ¬ b = 0x0A := fun e => hnl (by simp [e])
    have h2 := ih (fun hm => hnl (List.mem_cons_of_mem _ hm)) (cur ++ [b])
      (by simp at h ⊢; omega)
    have hstep : scanText cur ((b :: line) ++ 0x0A :: rest)
        = scanText (cur ++ [b]) (line ++ 0x0A :: rest) := by
      rw [List.cons_append, scanText]
      simp only [h1, if_false, hb]
    rw [hstep, h2]
    simp

/-- A line that fills the buffer before its newline: the call fails with `ErrTooLong`, the
next call delivers the buffer, nothing after it is read. -/
theorem scanText_tooLong (pre : GoString) (hnl : 0x0A ∉ pre) (post : GoString) :
    ∀ cur : GoString, cur.length + pre.length = MaxScanTokenSize →
      scanText cur (pre ++ post) = ⟨[none, some (dropCR (cur ++ pre))], some .tooLong⟩ := by
  induction pre with
  | nil =>
    intro cur h
    have h1 : MaxScanTokenSize ≤ cur.length := by simp at h; omega
    have h0 : cur ≠ [] := by
      intro e
      rw [e] at h1
      simp [MaxScanTokenSize] at h1
    cases post with
    | nil => simp [scanText, h1, h0]
    | cons b post => simp [scanText, h1]
  | cons b pre ih =>
    intro cur h
    have h1 : ¬ MaxScanTokenSize ≤ cur.length := by simp at h; omega
    have hb : ¬ b = 0x0A := fun e => hnl (by simp [e])
    have h2 := ih (fun hm => hnl (List.mem_cons_of_mem _ hm)) (cur ++ [b])
      (by simp at h ⊢; omega)
    have hstep : scanText cur ((b :: pre) ++ post) = scanText (cur ++ [b]) (pre ++ post) := by
      rw [List.cons_append, scanText]
      simp only [h1, if_false, hb]
    rw [hstep, h2]
    simp

/-- A text of lines that all fit the buffer is delivered line by line, to its end. -/
theorem NewScanner_joinLines (lines : List GoString)
    (h : ∀ l ∈ lines, 0x0A ∉ l ∧ l.length < MaxScanTokenSize) :
    NewScanner (joinLines lines) = Scanner.ofLines (lines.map dropCR) none := by
  induction lines with
  | nil => rfl
  | cons l rest ih =>
    have hl := h l (List.mem_cons_self _ _)
    have hr := ih (fun x hx => h x (List.mem_cons_of_mem _ hx))
    unfold NewScanner at hr ⊢
    rw [joinLines, scanText_line l hl.1 _ [] (by simpa using hl.2), hr]
    simp [Scanner.ofLines]

/-- A text of lines without newline or carriage return that fit the buffer, each ended by a
newline, is delivered line by line and read to its end without error. -/
theorem NewScanner_of_lines (lines : List GoString)
    (h : ∀ l ∈ lines, 0x0A ∉ l ∧ 0x0D ∉ l ∧ l.length < MaxScanTokenSize) :
    NewScanner (joinLines lines) = Scanner.ofLines lines none := by
  have hmap : lines.map dropCR = lines := by
    conv_rhs => rw [← List.map_id lines]
    apply List.map_congr_left
    intro l hl
    exact dropCR_of_not_mem l (h l hl).2.1
  rw [NewScanner_joinLines lines (fun l hl => ⟨(h l hl).1, (h l hl).2.2⟩), hmap]

/-- A text of lines that fit the buffer followed by a line that does not: the lines are
delivered, the next call fails with `ErrTooLong`, the call after it delivers the first
`MaxScanTokenSize` bytes of the long line, and nothing more is read. -/
theorem NewScanner_tooLong (lines : List GoString) (long post : GoString)
    (h : ∀ l ∈ lines, 0x0A ∉ l ∧ l.length < MaxScanTokenSize)
    (hnl : 0x0A ∉ long.take MaxScanTokenSize) (hlen : MaxScanTokenSize ≤ long.length) :
    NewScanner (joinLines lines ++ (long ++ post))
      = ⟨lines.map (fun l => some (dropCR l)) ++
          [none, some (dropCR (long.take MaxScanTokenSize))], some .tooLong⟩ := by
  induction lines with
  | nil =>
    have hsplit : long ++ post
        = long.take MaxScanTokenSize ++ (long.drop MaxScanTokenSize ++ post) := by
      rw [← List.append_assoc, List.take_append_drop]
    unfold NewScanner
    rw [joinLines, List.nil_append, hsplit,
      scanText_tooLong _ hnl _ [] (by simp [List.length_take]; omega)]
    simp
  | cons l rest ih =>
    have hl := h l (List.mem_cons_self _ _)
    have hr := ih (fun x hx => h x (List.mem_cons_of_mem _ hx))
    unfold NewScanner at hr ⊢
    have e : joinLines (l :: rest) ++ (long ++ post)
        = l ++ 0x0A :: (joinLines rest ++ (long ++ post)) := by
      simp [joinLines]
    rw [e, scanText_line l hl.1 _ [] (by simpa using hl.2), hr]
    simp

theorem Split_token (tok : GoString) (h : 0x20 ∉ tok) : Split tok = [tok] := by
  induction tok with
  | nil => rfl
  | cons b tok ih =>
    have hb : ¬ b = 0x20 := fun e => h (by simp [e])
    rw [Split, if_neg hb, ih (fun hm => h (List.mem_cons_of_mem _ hm))]

theorem Split_token_space (tok rest : GoString) (h : 0x20 ∉ tok) :
    Split (tok ++ 0x20 :: rest) = tok :: Split rest := by
  induction tok with
  | nil => simp [Split]
  | cons b tok ih =>
    have hb : ¬ b = 0x20 := fun e => h (by simp [e])
    rw [List.cons_append, Split, if_neg hb, ih (fun hm => h (List.mem_cons_of_mem _ hm))]

theorem pairStep_leading_space (fileName : GoString) (netStats : NetStats)
    (rest valueLine : GoString) :
    pairStep fileName netStats (0x20 :: rest) valueLine = .panic := by
  have e : Split (0x20 :: rest) = [] :: Split rest := by simp [Split]
  simp [pairStep, e]

/-! ## parseNetStats -/

theorem Split_ne_nil (s : GoString) : Split s ≠ [] := by
  induction s with
  | nil => simp [Split]
  | cons b rest ih =>
    unfold Split
    split
    · simp
    · split <;> simp

theorem Split_head (s : GoString) : (Split s)[0]? = some (firstToken s) := by
  unfold firstToken
  cases h : Split s with
  | nil => exact absurd h (Split_ne_nil s)
  | cons a l => simp

theorem zipFields_append (nameParts valueParts : List GoString) (protocol : GoString)
    (pre : NetStats) (hp : protocol ∉ GoMap.keys pre) :
    ∀ (k s : Nat) (fields : GoMap GoString GoString),
      s + k ≤ nameParts.length → s + k ≤ valueParts.length →
      (((nameParts.drop s).take k) ++ GoMap.keys fields).Nodup →
      zipFields nameParts valueParts protocol (List.range' s k) (pre ++ [(protocol, fields)])
        = some (pre ++ [(protocol,
            fields ++ ((nameParts.drop s).take k).zip ((valueParts.drop s).take k))]) := by
  intro k
  induction k with
  | zero => intro s fields _ _ _; simp [zipFields]
  | succ k ih =>
    intro s fields hn hv hnd
    have hsn : s < nameParts.length := by omega
    have hsv : s < valueParts.length := by omega
    have e1 : nameParts.drop s = nameParts[s] :: nameParts.drop (s + 1) :=
      List.drop_eq_getElem_cons hsn
    have e2 : valueParts.drop s = valueParts[s] :: valueParts.drop (s + 1) :=
      List.drop_eq_getElem_cons hsv
    rw [e1, List.take_succ_cons] at hnd
    rw [e1, e2, List.take_succ_cons, List.take_succ_cons, List.zip_cons_cons]
    have hnot : nameParts[s] ∉ GoMap.keys fields := by
      intro hmem
      have := (List.nodup_cons.mp hnd).1
      exact this (List.mem_append_right _ hmem)
    have hstep : zipFields nameParts valueParts protocol (List.range' s (k + 1))
        (pre ++ [(protocol, fields)])
        = zipFields nameParts valueParts protocol (List.range' (s + 1) k)
            (pre ++ [(protocol, fields ++ [(nameParts[s], valueParts[s])])]) := by
      rw [List.range'_succ, zipFields]
      simp only [List.getElem?_eq_getElem hsn, List.getElem?_eq_getElem hsv,
        GoMap.get?_append_self pre protocol fields hp]
      rw [GoMap.set_append_self pre protocol _ _ hp, GoMap.set_of_not_mem fields _ _ hnot]
    rw [hstep, ih (s + 1) _ (by omega) (by omega)]
    · simp
    · have h2 := (List.nodup_cons.mp hnd).2
      have h1 := (List.nodup_cons.mp hnd).1
      simp only [GoMap.keys, List.map_append, List.map_cons, List.map_nil] at *
      rw [← List.append_assoc]
      refine List.Nodup.append ?_ (List.nodup_singleton _) ?_
      · exact h2
      · intro a ha hb
        simp at hb
        subst hb
        exact h1 ha

theorem zipFields_isSome (nameParts valueParts : List GoString) (protocol : GoString) :
    ∀ (is : List Nat) (netStats : NetStats),
      (∀ i ∈ is, i < nameParts.length ∧ i < valueParts.length) →
      protocol ∈ GoMap.keys netStats →
      ∃ out, zipFields nameParts valueParts protocol is netStats = some out := by
  intro is
  induction is with
  | nil => intro netStats _ _; exact ⟨netStats, rfl⟩
  | cons i is ih =>
    intro netStats hi hp
    have h1 := hi i (List.mem_cons_self _ _)
    obtain ⟨fields, hf⟩ := Option.isSome_iff_exists.mp ((GoMap.get?_isSome_iff netStats protocol).mpr hp)
    rw [zipFields]
    simp only [List.getElem?_eq_getElem h1.1, List.getElem?_eq_getElem h1.2, hf]
    apply ih
    · intro j hj
      exact hi j (List.mem_cons_of_mem _ hj)
    · exact (GoMap.mem_keys_set _ _ _ _).mpr (Or.inl rfl)

/-- One pass of the scan loop over a header with a non-empty first part: a field count
mismatch fails, equal counts continue. -/
theorem pairStep_cases (fileName : GoString) (netStats : NetStats) (nameLine valueLine : GoString)
    (h : firstToken nameLine ≠ []) :
    ((Split nameLine).length ≠ (Split valueLine).length ∧
      pairStep fileName netStats nameLine valueLine
        = .fail (.mismatch fileName (protocolOf nameLine))) ∨
    ((Split nameLine).length = (Split valueLine).length ∧
      ∃ out, pairStep fileName netStats nameLine valueLine = .next out) := by
  have hlen : ¬ (firstToken nameLine).length = 0 := by
    intro e
    exact h (List.length_eq_zero.mp e)
  by_cases hc : (Split nameLine).length = (Split valueLine).length
  · right
    refine ⟨hc, ?_⟩
    obtain ⟨out, ho⟩ := zipFields_isSome (Split nameLine) (Split valueLine)
      ((firstToken nameLine).take ((firstToken nameLine).length - 1))
      (List.range' 1 ((Split nameLine).length - 1))
      (GoMap.set netStats ((firstToken nameLine).take ((firstToken nameLine).length - 1)) [])
      (by
        intro i hi
        have := List.mem_range'_1.mp hi
        omega)
      ((GoMap.mem_keys_set _ _ _ _).mpr (Or.inl rfl))
    refine ⟨out, ?_⟩
    rw [hc] at ho
    simp only [pairStep, Split_head, hlen, if_false, hc, ne_eq, not_true_eq_false, ho]
  · left
    refine ⟨hc, ?_⟩
    simp only [pairStep, Split_head, hlen, if_false, hc, ne_eq, not_false_eq_true, if_true,
      protocolOf, List.dropLast_eq_take]

theorem scanPairs_no_panic (fileName : GoString) (err : Option GoError) :
    ∀ (r : List GoString) (netStats : NetStats),
      (∀ i l, i % 2 = 0 → r[i]? = some l → firstToken l ≠ []) →
      (∃ out, scanPairs fileName err (r.map some) netStats = .ret (some out) err) ∨
      (∃ protocol, scanPairs fileName err (r.map some) netStats
        = .ret none (some (.mismatch fileName protocol)))
  | [], netStats, _ => Or.inl ⟨netStats, rfl⟩
  | [nameLine], netStats, h => by
    have h0 : firstToken nameLine ≠ [] := h 0 nameLine rfl rfl
    rcases pairStep_cases fileName netStats nameLine [] h0 with ⟨_, e⟩ | ⟨_, out, e⟩
    · right
      exact ⟨protocolOf nameLine, by simp [scanPairs, e]⟩
    · left
      exact ⟨out, by simp [scanPairs, e]⟩
  | nameLine :: valueLine :: rest, netStats, h => by
    have h0 : firstToken nameLine ≠ [] := h 0 nameLine rfl rfl
    rcases pairStep_cases fileName netStats nameLine valueLine h0 with ⟨_, e⟩ | ⟨_, out, e⟩
    · right
      exact ⟨protocolOf nameLine, by simp [scanPairs, e]⟩
    · have hrest : ∀ i l, i % 2 = 0 → rest[i]? = some l → firstToken l ≠ [] := by
        intro i l hi hl
        exact h (i + 2) l (by omega) (by simpa using hl)
      have := scanPairs_no_panic fileName err rest out hrest
      simpa [scanPairs, e] using this

theorem scanPairs_mismatch (fileName : GoString) (err : Option GoError) (header : GoString)
    (rest : List GoString)
    (hfirst : firstToken header ≠ [])
    (hmis : (Split header).length ≠ (Split (rest.headD [])).length) :
    ∀ (pre : List (GoString × GoString)) (netStats : NetStats),
      (∀ p ∈ pre, firstToken p.1 ≠ [] ∧ (Split p.1).length = (Split p.2).length) →
      scanPairs fileName err ((pairLines pre ++ header :: rest).map some) netStats
        = .ret none (some (.mismatch fileName (protocolOf header))) := by
  intro pre
  induction pre with
  | nil =>
    intro netStats _
    cases rest with
    | nil =>
      rcases pairStep_cases fileName netStats header [] hfirst with ⟨_, e⟩ | ⟨hc, _⟩
      · simp [pairLines, scanPairs, e]
      · exact absurd hc hmis
    | cons valueLine rest =>
      rcases pairStep_cases fileName netStats header valueLine hfirst with ⟨_, e⟩ | ⟨hc, _⟩
      · simp [pairLines, scanPairs, e]
      · exact absurd hc hmis
  | cons p pre ih =>
    intro netStats hpre
    have hp := hpre p (List.mem_cons_self _ _)
    rcases pairStep_cases fileName netStats p.1 p.2 hp.1 with ⟨hc, _⟩ | ⟨_, out, e⟩
    · exact absurd hp.2 hc
    · have := ih out (fun q hq => hpre q (List.mem_cons_of_mem _ hq))
      simpa [pairLines, scanPairs, e] using this

theorem pairStep_zip (fileName : GoString) (netStats : NetStats) (p : GoString × GoString)
    (hfirst : firstToken p.1 ≠ [])
    (hlen : (Split p.1).length = (Split p.2).length)
    (hnew : protocolOf p.1 ∉ GoMap.keys netStats)
    (hnd : (Split p.1).tail.Nodup) :
    pairStep fileName netStats p.1 p.2 = .next (netStats ++ [pairEntry p]) := by
  have hl0 : ¬ (firstToken p.1).length = 0 := by
    intro e
    exact hfirst (List.length_eq_zero.mp e)
  have hpos : 1 ≤ (Split p.1).length := by
    have := Split_ne_nil p.1
    cases h : Split p.1 with
    | nil => exact absurd h this
    | cons a l => simp
  have hz := zipFields_append (Split p.1) (Split p.2) (protocolOf p.1) netStats hnew
    ((Split p.1).length - 1) 1 [] (by omega) (by omega)
    (by
      simp only [GoMap.keys, List.map_nil, List.append_nil]
      rw [List.drop_one]
      exact List.Nodup.sublist (List.take_sublist _ _) hnd)
  have ht1 : ((Split p.1).drop 1).take ((Split p.1).length - 1) = (Split p.1).tail := by
    rw [List.drop_one]
    exact List.take_of_length_le (by simp)
  have ht2 : ((Split p.2).drop 1).take ((Split p.1).length - 1) = (Split p.2).tail := by
    rw [List.drop_one]
    exact List.take_of_length_le (by simp [hlen])
  rw [ht1, ht2, List.nil_append] at hz
  have hset : GoMap.set netStats (protocolOf p.1) [] = netStats ++ [(protocolOf p.1, [])] :=
    GoMap.set_of_not_mem _ _ _ hnew
  simp only [pairStep, Split_head, hl0, if_false, hlen, ne_eq, not_true_eq_false,
    ← List.dropLast_eq_take]
  rw [← hlen]
  change (match zipFields (Split p.1) (Split p.2) (protocolOf p.1)
      (List.range' 1 ((Split p.1).length - 1)) (GoMap.set netStats (protocolOf p.1) []) with
    | none => PairStep.panic
    | some netStats => PairStep.next netStats) = _
  rw [hset, hz]
  rfl

theorem scanPairs_zip (fileName : GoString) (err : Option GoError) :
    ∀ (pairs : List (GoString × GoString)) (netStats : NetStats),
      (∀ p ∈ pairs, firstToken p.1 ≠ []) →
      (∀ p ∈ pairs, (Split p.1).length = (Split p.2).length) →
      (GoMap.keys netStats ++ pairs.map (fun p => protocolOf p.1)).Nodup →
      (∀ p ∈ pairs, (Split p.1).tail.Nodup) →
      scanPairs fileName err ((pairLines pairs).map some) netStats
        = .ret (some (netStats ++ pairs.map pairEntry)) err := by
  intro pairs
  induction pairs with
  | nil => intro netStats _ _ _ _; simp [pairLines, scanPairs]
  | cons p pairs ih =>
    intro netStats h1 h2 h3 h4
    have hnew : protocolOf p.1 ∉ GoMap.keys netStats := by
      intro hmem
      have := List.disjoint_of_nodup_append h3
      exact this hmem (by simp)
    have e := pairStep_zip fileName netStats p (h1 p (List.mem_cons_self _ _))
      (h2 p (List.mem_cons_self _ _)) hnew (h4 p (List.mem_cons_self _ _))
    have hrec := ih (netStats ++ [pairEntry p])
      (fun q hq => h1 q (List.mem_cons_of_mem _ hq))
      (fun q hq => h2 q (List.mem_cons_of_mem _ hq))
      (by
        simp only [GoMap.keys, List.map_append, List.map_cons, List.map_nil, pairEntry,
          List.append_assoc, List.singleton_append] at h3 ⊢
        exact h3)
      (fun q hq => h4 q (List.mem_cons_of_mem _ hq))
    simp only [pairLines, scanPairs, e, hrec]
    simp

theorem map_fst_zip_sublist (names values : List GoString) :
    ((names.zip values).map Prod.fst).Sublist names := by
  induction names generalizing values with
  | nil => simp
  | cons a l ih =>
    cases values with
    | nil => simp
    | cons b m =>
      simp only [List.zip_cons_cons, List.map_cons]
      exact List.Sublist.cons₂ _ (ih m)

theorem zip_get?_iff (names values : List GoString) (hnd : names.Nodup)
    (name value : GoString) :
    GoMap.get? (names.zip values) name = some value ↔
      ∃ j : Nat, names[j]? = some name ∧ values[j]? = some value := by
  have hk : (GoMap.keys (names.zip values)).Nodup := by
    exact List.Nodup.sublist (map_fst_zip_sublist names values) hnd
  constructor
  · intro h
    have hm := GoMap.mem_of_get? _ _ _ h
    obtain ⟨j, hj⟩ := List.mem_iff_getElem?.mp hm
    exact ⟨j, List.getElem?_zip_eq_some.mp hj⟩
  · rintro ⟨j, h1, h2⟩
    apply GoMap.get?_of_mem _ hk
    apply List.mem_iff_getElem?.mpr
    exact ⟨j, List.getElem?_zip_eq_some.mpr ⟨h1, h2⟩⟩

/-- C1, as the code has it.  For every input of which the scanner delivers every line, made
of (header line, value line) pairs in which the first part of every header is non-empty,
header and value line split on a single space into the same number of parts, the protocols
are distinct across pairs and the field names distinct within a header, `parseNetStats`
returns the error status of the scanner and a namespace whose protocols are exactly the
headers' first parts without their last byte, each protocol mapping exactly to the field names
of its header paired position by position, from index 1 on, with the values.  In particular
for the text of such lines, each shorter than the buffer of the scanner, free of newline and
carriage return and ended by a newline, this namespace is returned with no error. -/
theorem parseNetStats_zip (fileName : GoString) (err : Option GoError)
    (pairs : List (GoString × GoString))
    (hfirst : ∀ p ∈ pairs, firstToken p.1 ≠ [])
    (hlen : ∀ p ∈ pairs, (Split p.1).length = (Split p.2).length)
    (hproto : (pairs.map (fun p => protocolOf p.1)).Nodup)
    (hnames : ∀ p ∈ pairs, (Split p.1).tail.Nodup) :
    ∃ netStats,
      parseNetStats (Scanner.ofLines (pairLines pairs) err) fileName
        = .ret (some netStats) err ∧
      ((∀ l ∈ pairLines pairs, 0x0A ∉ l ∧ 0x0D ∉ l ∧ l.length < MaxScanTokenSize) →
        parseNetStats (NewScanner (joinLines (pairLines pairs))) fileName
          = .ret (some netStats) none) ∧
      (GoMap.keys netStats).Nodup ∧
      (∀ protocol, protocol ∈ GoMap.keys netStats ↔ ∃ p ∈ pairs, protocol = protocolOf p.1) ∧
      ∀ p ∈ pairs, ∃ fields, GoMap.get? netStats (protocolOf p.1) = some fields ∧
        ∀ name value, GoMap.get? fields name = some value ↔
          ∃ i : Nat, 1 ≤ i ∧ (Split p.1)[i]? = some name ∧ (Split p.2)[i]? = some value := by
  have hkeys : GoMap.keys (pairs.map pairEntry) = pairs.map (fun p => protocolOf p.1) := by
    simp [GoMap.keys, pairEntry, Function.comp_def]
  refine ⟨pairs.map pairEntry, ?_, ?_, ?_, ?_, ?_⟩
  · have := scanPairs_zip fileName err pairs [] hfirst hlen
      (by simpa [GoMap.keys] using hproto) hnames
    simpa [parseNetStats, Scanner.ofLines] using this
  · intro hfit
    rw [NewScanner_of_lines _ hfit]
    have := scanPairs_zip fileName none pairs [] hfirst hlen
      (by simpa [GoMap.keys] using hproto) hnames
    simpa [parseNetStats, Scanner.ofLines] using this
  · rw [hkeys]; exact hproto
  · intro protocol
    rw [hkeys]
    simp only [List.mem_map]
    constructor
    · rintro ⟨p, hp, rfl⟩
      exact ⟨p, hp, rfl⟩
    · rintro ⟨p, hp, rfl⟩
      exact ⟨p, hp, rfl⟩
  · intro p hp
    refine ⟨(Split p.1).tail.zip (Split p.2).tail, ?_, ?_⟩
    · apply GoMap.get?_of_mem _ (by rw [hkeys]; exact hproto)
      exact List.mem_map.mpr ⟨p, hp, rfl⟩
    · intro name value
      rw [zip_get?_iff _ _ (hnames p hp)]
      constructor
      · rintro ⟨j, h1, h2⟩
        refine ⟨j + 1, by omega, ?_, ?_⟩
        · rw [← List.drop_one, List.getElem?_drop] at h1
          rwa [Nat.add_comm] at h1
        · rw [← List.drop_one, List.getElem?_drop] at h2
          rwa [Nat.add_comm] at h2
      · rintro ⟨i, hi, h1, h2⟩
        obtain ⟨j, rfl⟩ : ∃ j, i = j + 1 := ⟨i - 1, by omega⟩
        refine ⟨j, ?_, ?_⟩
        · rw [← List.drop_one, List.getElem?_drop, Nat.add_comm]; exact h1
        · rw [← List.drop_one, List.getElem?_drop, Nat.add_comm]; exact h2

/-- Instance of C1: two well-formed pairs of `/proc/net/snmp` shape, read to the end. -/
theorem parseNetStats_zip_witness :
    NewScanner (ascii "Tcp: InSegs OutSegs\nTcp: 10 20\nUdp: InDatagrams\nUdp: 7\n")
      = Scanner.ofLines (pairLines [(ascii "Tcp: InSegs OutSegs", ascii "Tcp: 10 20"),
          (ascii "Udp: InDatagrams", ascii "Udp: 7")]) none ∧
    ∃ netStats,
      parseNetStats (Scanner.ofLines (pairLines [(ascii "Tcp: InSegs OutSegs", ascii "Tcp: 10 20"),
        (ascii "Udp: InDatagrams", ascii "Udp: 7")]) none) (ascii "net/snmp")
        = .ret (some netStats) none ∧
      ((∀ l ∈ pairLines [(ascii "Tcp: InSegs OutSegs", ascii "Tcp: 10 20"),
          (ascii "Udp: InDatagrams", ascii "Udp: 7")],
          0x0A ∉ l ∧ 0x0D ∉ l ∧ l.length < MaxScanTokenSize) →
        parseNetStats (NewScanner (joinLines (pairLines
          [(ascii "Tcp: InSegs OutSegs", ascii "Tcp: 10 20"),
            (ascii "Udp: InDatagrams", ascii "Udp: 7")]))) (ascii "net/snmp")
          = .ret (some netStats) none) ∧
      (GoMap.keys netStats).Nodup ∧
      (∀ protocol, protocol ∈ GoMap.keys netStats ↔
        ∃ p ∈ [(ascii "Tcp: InSegs OutSegs", ascii "Tcp: 10 20"),
          (ascii "Udp: InDatagrams", ascii "Udp: 7")], protocol = protocolOf p.1) ∧
      ∀ p ∈ [(ascii "Tcp: InSegs OutSegs", ascii "Tcp: 10 20"),
          (ascii "Udp: InDatagrams", ascii "Udp: 7")],
        ∃ fields, GoMap.get? netStats (protocolOf p.1) = some fields ∧
          ∀ name value, GoMap.get? fields name = some value ↔
            ∃ i : Nat, 1 ≤ i ∧ (Split p.1)[i]? = some name ∧ (Split p.2)[i]? = some value :=
  ⟨by decide,
    parseNetStats_zip (ascii "net/snmp") none
      [(ascii "Tcp: InSegs OutSegs", ascii "Tcp: 10 20"), (ascii "Udp: InDatagrams", ascii "Udp: 7")]
      (by decide) (by decide) (by decide) (by decide)⟩

theorem longToken_no_space : (0x20 : UInt8) ∉ longToken := by
  intro h
  unfold longToken at h
  have := List.eq_of_mem_replicate h
  revert this
  decide

theorem longToken_no_newline : (0x0A : UInt8) ∉ longToken := by
  intro h
  unfold longToken at h
  have := List.eq_of_mem_replicate h
  revert this
  decide

theorem longToken_length : longToken.length = 70000 := by
  unfold longToken
  exact List.length_replicate _ _

theorem Split_long_header (x : GoString) (hsp : 0x20 ∉ x) :
    Split (ascii "Udp: " ++ x) = [ascii "Udp:", x] := by
  have e : ascii "Udp: " ++ x = ascii "Udp:" ++ 0x20 :: x := rfl
  rw [e, Split_token_space _ _ (by decide), Split_token _ hsp]

theorem scanPairs_stops (fileName : GoString) (err : Option GoError) (chunk : Option GoString) :
    scanPairs fileName err [some (ascii "Tcp: InSegs"), some (ascii "Tcp: 10"), none, chunk] []
      = .ret (some [(ascii "Tcp", [(ascii "InSegs", ascii "10")])]) err := by
  have e : pairStep fileName [] (ascii "Tcp: InSegs") (ascii "Tcp: 10")
      = .next [(ascii "Tcp", [(ascii "InSegs", ascii "10")])] := by
    have h := pairStep_zip fileName [] (ascii "Tcp: InSegs", ascii "Tcp: 10")
      (by decide) (by decide) (by decide) (by decide)
    rw [h]
    decide
  simp only [scanPairs, e]

/-- Two pairs, the header of the second longer than the buffer: the scan stops at it. -/
theorem parseNetStats_stops_at_long_header (x : GoString) (hnl : 0x0A ∉ x)
    (hlen : MaxScanTokenSize ≤ x.length) :
    parseNetStats (NewScanner (joinLines (pairLines
        [(ascii "Tcp: InSegs", ascii "Tcp: 10"), (ascii "Udp: " ++ x, ascii "Udp: 7")])))
        (ascii "net/snmp")
      = .ret (some [(ascii "Tcp", [(ascii "InSegs", ascii "10")])]) (some .tooLong) := by
  have h := NewScanner_tooLong [ascii "Tcp: InSegs", ascii "Tcp: 10"]
    (ascii "Udp: " ++ x) (0x0A :: (ascii "Udp: 7" ++ [0x0A]))
    (by decide)
    (by
      intro hm
      have hm2 := List.mem_of_mem_take hm
      rcases List.mem_append.mp hm2 with h1 | h1
      · revert h1; decide
      · exact hnl h1)
    (by
      rw [List.length_append]
      omega)
  have e : joinLines (pairLines
        [(ascii "Tcp: InSegs", ascii "Tcp: 10"), (ascii "Udp: " ++ x, ascii "Udp: 7")])
      = joinLines [ascii "Tcp: InSegs", ascii "Tcp: 10"] ++
          ((ascii "Udp: " ++ x) ++ (0x0A :: (ascii "Udp: 7" ++ [0x0A]))) := by
    simp only [joinLines, pairLines, List.append_assoc, List.cons_append, List.nil_append,
      List.append_nil]
  have d1 : dropCR (ascii "Tcp: InSegs") = ascii "Tcp: InSegs" := by decide
  have d2 : dropCR (ascii "Tcp: 10") = ascii "Tcp: 10" := by decide
  rw [e, h]
  simp only [List.map_cons, List.map_nil, d1, d2, List.cons_append, List.nil_append,
    parseNetStats]
  exact scanPairs_stops _ _ _

/-- C1 fails as stated: the input is made of two (header line, value line) pairs that meet
the four conditions of the claim, the second header being longer than the buffer of the
scanner; `parseNetStats` returns the namespace of the first pair alone together with the
error `bufio.ErrTooLong`. -/
theorem parseNetStats_long_header :
    (∀ p ∈ longPairs, firstToken p.1 ≠ []) ∧
    (∀ p ∈ longPairs, (Split p.1).length = (Split p.2).length) ∧
    (longPairs.map (fun p => protocolOf p.1)).Nodup ∧
    (∀ p ∈ longPairs, (Split p.1).tail.Nodup) ∧
    parseNetStats (NewScanner (joinLines (pairLines longPairs))) (ascii "net/snmp")
      = .ret (some [(ascii "Tcp", [(ascii "InSegs", ascii "10")])]) (some .tooLong) := by
  have hs := Split_long_header longToken longToken_no_space
  have hft : firstToken (ascii "Udp: " ++ longToken) = ascii "Udp:" := by
    rw [firstToken, hs]
    rfl
  have hlp : longPairs
      = [(ascii "Tcp: InSegs", ascii "Tcp: 10"), (ascii "Udp: " ++ longToken, ascii "Udp: 7")] :=
    rfl
  rw [hlp]
  refine ⟨?_, ?_, ?_, ?_, ?_⟩
  · intro p hp
    simp only [List.mem_cons, List.mem_singleton, List.not_mem_nil, or_false] at hp
    rcases hp with rfl | rfl
    · decide
    · rw [hft]; decide
  · intro p hp
    simp only [List.mem_cons, List.mem_singleton, List.not_mem_nil, or_false] at hp
    rcases hp with rfl | rfl
    · decide
    · rw [hs]; decide
  · simp only [List.map_cons, List.map_nil, protocolOf, hft]
    decide
  · intro p hp
    simp only [List.mem_cons, List.mem_singleton, List.not_mem_nil, or_false] at hp
    rcases hp with rfl | rfl
    · decide
    · rw [hs]
      exact List.nodup_singleton _
  · exact parseNetStats_stops_at_long_header longToken longToken_no_newline
      (by rw [longToken_length]; decide)

/-- C2, as the code has it.  When every header line up to and including that of the first
pair with differing part counts has a non-empty first part, and the header and value line of
that pair split on a single space into different numbers of parts, a missing final value line
being read as the empty line, `parseNetStats` fails with the field-count-mismatch error for
that pair's protocol and returns no namespace, whatever well-formed pairs came before and
whatever the error status of the scanner. -/
theorem parseNetStats_mismatch (fileName : GoString) (err : Option GoError)
    (pre : List (GoString × GoString)) (header : GoString) (rest : List GoString)
    (hpre : ∀ p ∈ pre, firstToken p.1 ≠ [] ∧ (Split p.1).length = (Split p.2).length)
    (hfirst : firstToken header ≠ [])
    (hmis : (Split header).length ≠ (Split (rest.headD [])).length) :
    parseNetStats (Scanner.ofLines (pairLines pre ++ header :: rest) err) fileName
      = .ret none (some (.mismatch fileName (protocolOf header))) :=
  scanPairs_mismatch fileName err header rest hfirst hmis pre [] hpre

/-- Instance of C2: a well-formed pair, then a final header line of two parts with no value
line after it. -/
theorem parseNetStats_mismatch_witness :
    NewScanner (ascii "Tcp: InSegs\nTcp: 10\nUdp: InDatagrams\n")
      = Scanner.ofLines
          (pairLines [(ascii "Tcp: InSegs", ascii "Tcp: 10")] ++ ascii "Udp: InDatagrams" :: [])
          none ∧
    parseNetStats
        (Scanner.ofLines
          (pairLines [(ascii "Tcp: InSegs", ascii "Tcp: 10")] ++ ascii "Udp: InDatagrams" :: [])
          none)
        (ascii "net/snmp")
      = .ret none (some (.mismatch (ascii "net/snmp") (ascii "Udp"))) :=
  ⟨by decide,
    parseNetStats_mismatch (ascii "net/snmp") none [(ascii "Tcp: InSegs", ascii "Tcp: 10")]
      (ascii "Udp: InDatagrams") [] (by decide) (by decide) (by decide)⟩

/-- C2 fails as stated: a final header line of one part with no value line after it is
accepted, the namespace is returned and no error. -/
theorem parseNetStats_lone_header :
    parseNetStats (NewScanner (ascii "Tcp: InSegs\nTcp: 10\nUdp:\n")) (ascii "net/snmp")
      = .ret (some [(ascii "Tcp", [(ascii "InSegs", ascii "10")]), (ascii "Udp", [])]) none ∧
    parseNetStats (Scanner.ofLines [ascii "Tcp: InSegs", ascii "Tcp: 10", ascii "Udp:"] none)
        (ascii "net/snmp")
      = .ret (some [(ascii "Tcp", [(ascii "InSegs", ascii "10")]), (ascii "Udp", [])]) none :=
  ⟨by decide, by decide⟩

/-- C10, as the code has it.  When the scanner delivers every line of the input and the
first part of every header line (the lines at even positions, counting from 0) is non-empty,
`parseNetStats` does not panic: it returns a namespace with the error status of the scanner,
or no namespace and the field-count-mismatch error.  The text of lines that are shorter than
the buffer of the scanner, free of newline and carriage return and ended by a newline, is
such an input, read without error. -/
theorem parseNetStats_index_safety (r : List GoString) (err : Option GoError)
    (fileName : GoString)
    (h : ∀ i, i < r.length → i % 2 = 0 → firstToken (r.getD i []) ≠ []) :
    parseNetStats (Scanner.ofLines r err) fileName ≠ .panic ∧
    ((∃ netStats, parseNetStats (Scanner.ofLines r err) fileName = .ret (some netStats) err) ∨
      (∃ protocol, parseNetStats (Scanner.ofLines r err) fileName
        = .ret none (some (.mismatch fileName protocol)))) ∧
    ((∀ l ∈ r, 0x0A ∉ l ∧ 0x0D ∉ l ∧ l.length < MaxScanTokenSize) →
      NewScanner (joinLines r) = Scanner.ofLines r none) := by
  have h2 : ∀ (i : Nat) (l : GoString), i % 2 = 0 → r[i]? = some l → firstToken l ≠ [] := by
    intro i l hi hl
    have hlt : i < r.length := by
      by_contra hc
      rw [List.getElem?_eq_none (by omega)] at hl
      exact Option.noConfusion hl
    have := h i hlt hi
    rwa [List.getD_eq_getElem?_getD, hl] at this
  have := scanPairs_no_panic fileName err r [] h2
  refine ⟨?_, this, NewScanner_of_lines r⟩
  rcases this with ⟨out, e⟩ | ⟨p, e⟩
  · intro hp
    rw [parseNetStats, Scanner.ofLines] at hp
    simp only [] at hp
    rw [e] at hp
    exact Outcome.noConfusion hp
  · intro hp
    rw [parseNetStats, Scanner.ofLines] at hp
    simp only [] at hp
    rw [e] at hp
    exact Outcome.noConfusion hp

/-- Instance of C10: a header whose value line has more parts, and one without value line. -/
theorem parseNetStats_index_safety_witness :
    NewScanner (ascii "Tcp: InSegs\nTcp: 10 11\nUdp:\n")
      = Scanner.ofLines [ascii "Tcp: InSegs", ascii "Tcp: 10 11", ascii "Udp:"] none ∧
    parseNetStats (Scanner.ofLines [ascii "Tcp: InSegs", ascii "Tcp: 10 11", ascii "Udp:"] none)
        (ascii "net/snmp") ≠ .panic ∧
    ((∃ netStats,
        parseNetStats (Scanner.ofLines [ascii "Tcp: InSegs", ascii "Tcp: 10 11", ascii "Udp:"] none)
          (ascii "net/snmp") = .ret (some netStats) none) ∨
      (∃ protocol,
        parseNetStats (Scanner.ofLines [ascii "Tcp: InSegs", ascii "Tcp: 10 11", ascii "Udp:"] none)
          (ascii "net/snmp") = .ret none (some (.mismatch (ascii "net/snmp") protocol)))) ∧
    ((∀ l ∈ [ascii "Tcp: InSegs", ascii "Tcp: 10 11", ascii "Udp:"],
        0x0A ∉ l ∧ 0x0D ∉ l ∧ l.length < MaxScanTokenSize) →
      NewScanner (joinLines [ascii "Tcp: InSegs", ascii "Tcp: 10 11", ascii "Udp:"])
        = Scanner.ofLines [ascii "Tcp: InSegs", ascii "Tcp: 10 11", ascii "Udp:"] none) :=
  ⟨by decide,
    parseNetStats_index_safety [ascii "Tcp: InSegs", ascii "Tcp: 10 11", ascii "Udp:"] none
      (ascii "net/snmp") (by decide)⟩

/-- A header line "Udp:" followed by a line that starts with a space and is longer than the
buffer: the buffer is delivered as a header line and its empty first part is sliced. -/
theorem parseNetStats_panics_after_long_value (x : GoString) (hnl : 0x0A ∉ x)
    (hlen : MaxScanTokenSize ≤ x.length) :
    parseNetStats (NewScanner (ascii "Udp:" ++ 0x0A :: (0x20 :: x))) (ascii "net/snmp")
      = .panic := by
  have h := NewScanner_tooLong [ascii "Udp:"] (0x20 :: x) []
    (by decide)
    (by
      intro hm
      have hm2 := List.mem_of_mem_take hm
      rcases List.mem_cons.mp hm2 with h1 | h1
      · revert h1; decide
      · exact hnl h1)
    (by
      rw [List.length_cons]
      omega)
  have e : ascii "Udp:" ++ 0x0A :: (0x20 :: x)
      = joinLines [ascii "Udp:"] ++ ((0x20 :: x) ++ []) := by
    simp [joinLines]
  have d1 : dropCR (ascii "Udp:") = ascii "Udp:" := by decide
  have hm : MaxScanTokenSize = 65535 + 1 := by decide
  have hx : x.take 65535 ≠ [] := by
    intro e0
    have hl := congrArg List.length e0
    rw [List.length_take] at hl
    have h6 : MaxScanTokenSize = 65536 := by decide
    simp only [List.length_nil] at hl
    omega
  obtain ⟨b, y, hy⟩ := List.exists_cons_of_ne_nil hx
  have hchunk : dropCR ((0x20 :: x).take MaxScanTokenSize) = 0x20 :: dropCR (b :: y) := by
    rw [hm, List.take_succ_cons, hy, dropCR]
    intro e0
    exact List.noConfusion e0
  have e1 : pairStep (ascii "net/snmp") [] (ascii "Udp:") []
      = .next [(ascii "Udp", [])] := by decide
  rw [e, h, hchunk]
  simp only [List.map_cons, List.map_nil, d1, List.cons_append, List.nil_append,
    parseNetStats, scanPairs, e1, pairStep_leading_space]

/-- C10 fails as stated: in the input "Udp:", newline, a space and 70000 bytes "x", the one
header line has the non-empty first part "Udp:".  The second `Scan()` fails on the long
line, the next `Scan()` delivers the buffer, which starts with a space, as a header line, and
the slice of its empty first part panics. -/
theorem parseNetStats_long_value_panics :
    longValueText = ascii "Udp:" ++ 0x0A :: (0x20 :: longToken) ∧
    0x0A ∉ ascii "Udp:" ∧ 0x0A ∉ longToken ∧
    firstToken (ascii "Udp:") ≠ [] ∧
    parseNetStats (NewScanner longValueText) (ascii "net/snmp") = .panic :=
  ⟨rfl, by decide, longToken_no_newline, by decide,
    parseNetStats_panics_after_long_value longToken longToken_no_newline
      (by rw [longToken_length]; decide)⟩

/-! ## parseSNMP6Stats -/

theorem Index_of_mem (c : UInt8) (s : GoString) (h : c ∈ s) : ∃ i, Index c s = some i := by
  induction s with
  | nil => simp at h
  | cons b rest ih =>
    by_cases hb : b = c
    · exact ⟨0, by simp [Index, hb]⟩
    · have hr : c ∈ rest := by
        rcases List.mem_cons.mp h with e | e
        · exact absurd e.symm hb
        · exact e
      obtain ⟨i, hi⟩ := ih hr
      exact ⟨i + 1, by simp [Index, hb, hi]⟩

theorem Index_first (c : UInt8) (s : GoString) (i : Nat) (h : Index c s = some i) :
    s[i]? = some c ∧ ∀ j, j < i → s[j]? ≠ some c := by
  induction s generalizing i with
  | nil => simp [Index] at h
  | cons b rest ih =>
    by_cases hb : b = c
    · simp only [Index, hb, if_true, Option.some.injEq] at h
      subst h
      simp [hb]
    · simp only [Index, hb, if_false, Option.map_eq_some'] at h
      obtain ⟨k, hk, rfl⟩ := h
      obtain ⟨h1, h2⟩ := ih k hk
      refine ⟨by simpa using h1, ?_⟩
      intro j hj
      cases j with
      | zero => simpa using hb
      | succ j => simpa using h2 j (by omega)

theorem snmp6Line_stores (netStats : NetStats) (line stat0 stat1 : GoString)
    (rest : List GoString) (sixIndex : Nat)
    (hf : Fields line = stat0 :: stat1 :: rest) (hi : Index 0x36 stat0 = some sixIndex) :
    ∃ fields, GoMap.get? (snmp6Line netStats line) (stat0.take (sixIndex + 1)) = some fields ∧
      GoMap.get? fields (stat0.drop (sixIndex + 1)) = some stat1 := by
  simp only [snmp6Line, hf, hi]
  exact ⟨_, GoMap.get?_set_self _ _ _, GoMap.get?_set_self _ _ _⟩

theorem snmp6Line_skips (netStats : NetStats) (line : GoString) (h : (Fields line).length < 2) :
    snmp6Line netStats line = netStats := by
  unfold snmp6Line
  split
  · rename_i e
    rw [e] at h
    simp only [List.length_cons] at h
    omega
  · rfl

/-- C5, as the code has it.  For every scanner that delivers the lines read so far and then
one more line: a line with fewer than two white-space separated tokens leaves the namespace
as it is.  For a line with at least two tokens whose first token contains the
byte "6", the protocol is the part of the first token up to and including its FIRST "6", the
field name is the remainder after that "6", and the namespace read so far stores the second
token under that protocol and field name. -/
theorem parseSNMP6Stats_split (r : List GoString) (line : GoString) (err : Option GoError) :
    ((Fields line).length < 2 →
      (parseSNMP6Stats (Scanner.ofLines (r ++ [line]) err)).1
        = (parseSNMP6Stats (Scanner.ofLines r err)).1) ∧
    ∀ stat0 stat1 rest, Fields line = stat0 :: stat1 :: rest → 0x36 ∈ stat0 →
      ∃ sixIndex : Nat, Index 0x36 stat0 = some sixIndex ∧ stat0[sixIndex]? = some 0x36 ∧
        (∀ j : Nat, j < sixIndex → stat0[j]? ≠ some 0x36) ∧
        ∃ fields,
          GoMap.get? (parseSNMP6Stats (Scanner.ofLines (r ++ [line]) err)).1
            (stat0.take (sixIndex + 1)) = some fields ∧
          GoMap.get? fields (stat0.drop (sixIndex + 1)) = some stat1 := by
  have hstep : (parseSNMP6Stats (Scanner.ofLines (r ++ [line]) err)).1
      = snmp6Line (parseSNMP6Stats (Scanner.ofLines r err)).1 line := by
    simp [parseSNMP6Stats, ofLines_lines, List.foldl_append]
  refine ⟨fun h => ?_, ?_⟩
  · rw [hstep]
    exact snmp6Line_skips _ _ h
  · intro stat0 stat1 rest hf hmem
    obtain ⟨i, hi⟩ := Index_of_mem 0x36 stat0 hmem
    obtain ⟨h1, h2⟩ := Index_first 0x36 stat0 i hi
    refine ⟨i, hi, h1, h2, ?_⟩
    rw [hstep]
    exact snmp6Line_stores _ line stat0 stat1 rest i hf hi

/-- Instance of C5: the line "Ip6InReceives 7" stores "7" under the protocol "Ip6" and the
field "InReceives". -/
theorem parseSNMP6Stats_split_witness :
    ∃ sixIndex : Nat, Index 0x36 (ascii "Ip6InReceives") = some sixIndex ∧
      (ascii "Ip6InReceives")[sixIndex]? = some 0x36 ∧
      (∀ j : Nat, j < sixIndex → (ascii "Ip6InReceives")[j]? ≠ some 0x36) ∧
      ∃ fields,
        GoMap.get? (parseSNMP6Stats (Scanner.ofLines ([] ++ [ascii "Ip6InReceives 7"]) none)).1
          ((ascii "Ip6InReceives").take (sixIndex + 1)) = some fields ∧
        GoMap.get? fields ((ascii "Ip6InReceives").drop (sixIndex + 1)) = some (ascii "7") :=
  (parseSNMP6Stats_split [] (ascii "Ip6InReceives 7") none).2 (ascii "Ip6InReceives")
    (ascii "7") [] (by decide) (by decide)

/-- C5 fails as stated: the first token "Icmp6InType136" is split at its first "6", giving the
protocol "Icmp6" and the field "InType136"; nothing is stored under the protocol that ends at
the last "6". -/
theorem parseSNMP6Stats_first_six :
    parseSNMP6Stats (NewScanner (ascii "Icmp6InType136 5\n"))
      = ([(ascii "Icmp6", [(ascii "InType136", ascii "5")])], none) ∧
    GoMap.get? (parseSNMP6Stats (NewScanner (ascii "Icmp6InType136 5\n"))).1
      (ascii "Icmp6InType136") = none :=
  ⟨by decide, by decide⟩

/-! ## The merge of Update -/

theorem mergeStats_cons (netStats : NetStats) (kv : GoString × GoMap GoString GoString)
    (src : NetStats) :
    mergeStats netStats (kv :: src) = mergeStats (GoMap.set netStats kv.1 kv.2) src := rfl

theorem mergeStats_get? (src : NetStats) :
    ∀ (netStats : NetStats), (GoMap.keys src).Nodup → ∀ protocol,
      GoMap.get? (mergeStats netStats src) protocol
        = (GoMap.get? src protocol).orElse (fun _ => GoMap.get? netStats protocol) := by
  induction src with
  | nil => intro netStats _ protocol; simp [mergeStats, GoMap.get?]
  | cons kv src ih =>
    intro netStats hnd protocol
    obtain ⟨k, v⟩ := kv
    simp only [GoMap.keys, List.map_cons, List.nodup_cons] at hnd
    rw [mergeStats_cons, ih _ hnd.2 protocol, GoMap.get?_set]
    by_cases hk : k = protocol
    · subst hk
      have : GoMap.get? src k = none := GoMap.get?_eq_none_of_not_mem _ _ hnd.1
      simp [this, GoMap.get?]
    · simp [GoMap.get?, hk]

theorem mem_set_iff {K V : Type} [DecidableEq K] (m : GoMap K V) (hm : (GoMap.keys m).Nodup)
    (k : K) (v : V) (x : K × V) :
    x ∈ GoMap.set m k v ↔ x = (k, v) ∨ (x ∈ m ∧ x.1 ≠ k) := by
  induction m with
  | nil => simp [GoMap.set]
  | cons e rest ih =>
    obtain ⟨a, b⟩ := e
    simp only [GoMap.keys, List.map_cons, List.nodup_cons] at hm
    by_cases h : a = k
    · subst h
      simp only [GoMap.set, if_true, List.mem_cons]
      constructor
      · rintro (e | e)
        · exact Or.inl e
        · right
          refine ⟨Or.inr e, ?_⟩
          intro hx
          exact hm.1 (hx ▸ List.mem_map.mpr ⟨x, e, rfl⟩)
      · rintro (e | ⟨e | e, hne⟩)
        · exact Or.inl e
        · subst e
          exact absurd rfl hne
        · exact Or.inr e
    · simp only [GoMap.set, h, if_false, List.mem_cons, ih hm.2]
      constructor
      · rintro (e | e | ⟨e, hne⟩)
        · subst e
          exact Or.inr ⟨Or.inl rfl, h⟩
        · exact Or.inl e
        · exact Or.inr ⟨Or.inr e, hne⟩
      · rintro (e | ⟨e | e, hne⟩)
        · exact Or.inr (Or.inl e)
        · exact Or.inl e
        · exact Or.inr (Or.inr ⟨e, hne⟩)

theorem mem_mergeStats (src : NetStats) :
    ∀ (netStats : NetStats), (GoMap.keys netStats).Nodup → (GoMap.keys src).Nodup →
      ∀ x, x ∈ mergeStats netStats src ↔ x ∈ src ∨ (x ∈ netStats ∧ x.1 ∉ GoMap.keys src) := by
  induction src with
  | nil => intro netStats _ _ x; simp [mergeStats, GoMap.keys]
  | cons kv src ih =>
    intro netStats hA hB x
    obtain ⟨k, v⟩ := kv
    simp only [GoMap.keys, List.map_cons, List.nodup_cons] at hB
    rw [mergeStats_cons, ih _ (GoMap.nodup_keys_set _ _ _ hA) hB.2 x, mem_set_iff _ hA]
    simp only [GoMap.keys, List.map_cons, List.mem_cons, not_or]
    constructor
    · rintro (e | ⟨e | ⟨e, hne⟩, hn⟩)
      · exact Or.inl (Or.inr e)
      · exact Or.inl (Or.inl e)
      · exact Or.inr ⟨e, hne, hn⟩
    · rintro ((e | e) | ⟨e, hne, hn⟩)
      · subst e
        exact Or.inr ⟨Or.inl rfl, hB.1⟩
      · exact Or.inl e
      · exact Or.inr ⟨Or.inr ⟨e, hne⟩, hn⟩

/-- C6, as the code has it.  Merging the namespace B into the namespace A replaces whole
protocols: under a protocol that B has, the merged namespace holds exactly B's fields and
values, and under any other protocol what A holds.  So the composed keys and values of the
merged namespace are those of B together with those of A whose protocol B does not have; a
field that A defines under a protocol that B also has is kept only if B defines it. -/
theorem mergeStats_replaces_protocols (A B : NetStats)
    (hA : (GoMap.keys A).Nodup) (hB : (GoMap.keys B).Nodup) :
    (∀ protocol, GoMap.get? (mergeStats A B) protocol
        = (GoMap.get? B protocol).orElse (fun _ => GoMap.get? A protocol)) ∧
    ∀ key value, (key, value) ∈ composedEntries (mergeStats A B) ↔
      (key, value) ∈ composedEntries B ∨
      ∃ protocol fields name, (protocol, fields) ∈ A ∧ protocol ∉ GoMap.keys B ∧
        (name, value) ∈ fields ∧ key = protocol ++ ascii "_" ++ name := by
  refine ⟨mergeStats_get? B A hB, ?_⟩
  intro key value
  simp only [composedEntries, List.mem_flatMap, List.mem_map, Prod.mk.injEq, Prod.exists,
    mem_mergeStats B A hA hB]
  constructor
  · rintro ⟨p, f, h | ⟨h, hn⟩, n, v, hnv, rfl, rfl⟩
    · exact Or.inl ⟨p, f, h, n, v, hnv, rfl, rfl⟩
    · exact Or.inr ⟨p, f, n, h, hn, hnv, rfl⟩
  · rintro (⟨p, f, h, n, v, hnv, rfl, rfl⟩ | ⟨p, f, n, h, hn, hnv, rfl⟩)
    · exact ⟨p, f, Or.inl h, n, v, hnv, rfl, rfl⟩
    · exact ⟨p, f, Or.inr ⟨h, hn⟩, n, value, hnv, rfl, rfl⟩

/-- Instance of the merge: A has the protocols Tcp and Ip, B has Tcp only. -/
theorem mergeStats_replaces_protocols_witness :
    (∀ protocol,
      GoMap.get? (mergeStats
          [(ascii "Tcp", [(ascii "InSegs", ascii "1"), (ascii "OutSegs", ascii "2")]),
           (ascii "Ip", [(ascii "Forwarding", ascii "1")])]
          [(ascii "Tcp", [(ascii "OutSegs", ascii "3")])]) protocol
        = (GoMap.get? [(ascii "Tcp", [(ascii "OutSegs", ascii "3")])] protocol).orElse
            (fun _ => GoMap.get?
              [(ascii "Tcp", [(ascii "InSegs", ascii "1"), (ascii "OutSegs", ascii "2")]),
               (ascii "Ip", [(ascii "Forwarding", ascii "1")])] protocol)) ∧
    mergeStats
        [(ascii "Tcp", [(ascii "InSegs", ascii "1"), (ascii "OutSegs", ascii "2")]),
         (ascii "Ip", [(ascii "Forwarding", ascii "1")])]
        [(ascii "Tcp", [(ascii "OutSegs", ascii "3")])]
      = [(ascii "Tcp", [(ascii "OutSegs", ascii "3")]),
         (ascii "Ip", [(ascii "Forwarding", ascii "1")])] :=
  ⟨(mergeStats_replaces_protocols
      [(ascii "Tcp", [(ascii "InSegs", ascii "1"), (ascii "OutSegs", ascii "2")]),
       (ascii "Ip", [(ascii "Forwarding", ascii "1")])]
      [(ascii "Tcp", [(ascii "OutSegs", ascii "3")])] (by decide) (by decide)).1, by decide⟩

/-- C6 fails as stated: A defines "Tcp_InSegs" and "Tcp_OutSegs", B defines "Tcp_OutSegs"
only; after the merge the key "Tcp_InSegs", defined only in A, is gone. -/
theorem mergeStats_drops_field :
    (ascii "Tcp_InSegs", ascii "1") ∈ composedEntries
      [(ascii "Tcp", [(ascii "InSegs", ascii "1"), (ascii "OutSegs", ascii "2")])] ∧
    composedEntries (mergeStats
      [(ascii "Tcp", [(ascii "InSegs", ascii "1"), (ascii "OutSegs", ascii "2")])]
      [(ascii "Tcp", [(ascii "OutSegs", ascii "3")])])
      = [(ascii "Tcp_OutSegs", ascii "3")] := by
  decide

/-! ## parseSocketStats and parsePodSocketStats -/

theorem codeName_none (tok : GoString) (h : tok ∉ socketCodes) : codeName tok = none := by
  simp only [socketCodes, List.mem_cons, List.mem_singleton, not_or, List.not_mem_nil,
    not_false_eq_true, and_true] at h
  obtain ⟨h1, h2, h3, h4, h5, h6, h7, h8, h9, h10, h11⟩ := h
  unfold codeName
  rw [if_neg h1, if_neg h2, if_neg h3, if_neg h4, if_neg h5, if_neg h6, if_neg h7, if_neg h8,
    if_neg h9, if_neg h10, if_neg h11]

theorem hostSwitch_none (code : GoMap GoString GoString) (socketlist : GoMap GoString Nat)
    (tok : GoString) (h : tok ∉ socketCodes) : hostSwitch code socketlist tok = socketlist := by
  simp only [socketCodes, List.mem_cons, List.mem_singleton, not_or, List.not_mem_nil,
    not_false_eq_true, and_true] at h
  obtain ⟨h1, h2, h3, h4, h5, h6, h7, h8, h9, h10, h11⟩ := h
  unfold hostSwitch
  rw [if_neg h1, if_neg h2, if_neg h3, if_neg h4, if_neg h5, if_neg h6, if_neg h7, if_neg h8,
    if_neg h9, if_neg h10, if_neg h11]

theorem podSwitch_none (code : GoMap GoString GoString) (socketlist : GoMap GoString Nat)
    (tok : GoString) (h : tok ∉ socketCodes) : podSwitch code socketlist tok = socketlist := by
  simp only [socketCodes, List.mem_cons, List.mem_singleton, not_or, List.not_mem_nil,
    not_false_eq_true, and_true] at h
  obtain ⟨h1, h2, h3, h4, h5, h6, h7, h8, h9, h10, h11⟩ := h
  have g1 : ¬ tok = podESTABLISHED := h1
  have g2 : ¬ tok = podSYN_SENT := h2
  have g3 : ¬ tok = podSYN_RCVD := h3
  have g4 : ¬ tok = podFIIN_WAIT_1 := h4
  have g5 : ¬ tok = podFN_WAIT_2 := h5
  have g6 : ¬ tok = podTIME_WAIT := h6
  have g7 : ¬ tok = podCLOSE_WAIT := h7
  have g8 : ¬ tok = podCLOSED := h8
  have g9 : ¬ tok = podLAST_ACK := h9
  have g10 : ¬ tok = podLISTEN := h10
  have g11 : ¬ tok = podCLOSING := h11
  unfold podSwitch
  rw [if_neg g1, if_neg g2, if_neg g3, if_neg g4, if_neg g5, if_neg g6, if_neg g7, if_neg g8,
    if_neg g9, if_neg g10, if_neg g11]

theorem hostStep_ESTABLISHED (socket : GoString) (socketlist : GoMap GoString Nat) :
    (if reg ESTABLISHED then hostSwitch (hostSocketCode socket) socketlist ESTABLISHED else socketlist)
      = countToken (fun name => socket ++ (ascii "_" ++ name)) socketlist ESTABLISHED := rfl

theorem hostStep_SYN_SENT (socket : GoString) (socketlist : GoMap GoString Nat) :
    (if reg SYN_SENT then hostSwitch (hostSocketCode socket) socketlist SYN_SENT else socketlist)
      = countToken (fun name => socket ++ (ascii "_" ++ name)) socketlist SYN_SENT := rfl

theorem hostStep_SYN_RCVD (socket : GoString) (socketlist : GoMap GoString Nat) :
    (if reg SYN_RCVD then hostSwitch (hostSocketCode socket) socketlist SYN_RCVD else socketlist)
      = countToken (fun name => socket ++ (ascii "_" ++ name)) socketlist SYN_RCVD := rfl

theorem hostStep_FIIN_WAIT_1 (socket : GoString) (socketlist : GoMap GoString Nat) :
    (if reg FIIN_WAIT_1 then hostSwitch (hostSocketCode socket) socketlist FIIN_WAIT_1 else socketlist)
      = countToken (fun name => socket ++ (ascii "_" ++ name)) socketlist FIIN_WAIT_1 := rfl

theorem hostStep_FN_WAIT_2 (socket : GoString) (socketlist : GoMap GoString Nat) :
    (if reg FN_WAIT_2 then hostSwitch (hostSocketCode socket) socketlist FN_WAIT_2 else socketlist)
      = countToken (fun name => socket ++ (ascii "_" ++ name)) socketlist FN_WAIT_2 := rfl

theorem hostStep_TIME_WAIT (socket : GoString) (socketlist : GoMap GoString Nat) :
    (if reg TIME_WAIT then hostSwitch (hostSocketCode socket) socketlist TIME_WAIT else socketlist)
      = countToken (fun name => socket ++ (ascii "_" ++ name)) socketlist TIME_WAIT := rfl

theorem hostStep_CLOSE_WAIT (socket : GoString) (socketlist : GoMap GoString Nat) :
    (if reg CLOSE_WAIT then hostSwitch (hostSocketCode socket) socketlist CLOSE_WAIT else socketlist)
      = countToken (fun name => socket ++ (ascii "_" ++ name)) socketlist CLOSE_WAIT := rfl

theorem hostStep_CLOSED (socket : GoString) (socketlist : GoMap GoString Nat) :
    (if reg CLOSED then hostSwitch (hostSocketCode socket) socketlist CLOSED else socketlist)
      = countToken (fun name => socket ++ (ascii "_" ++ name)) socketlist CLOSED := rfl

theorem hostStep_LAST_ACK (socket : GoString) (socketlist : GoMap GoString Nat) :
    (if reg LAST_ACK then hostSwitch (hostSocketCode socket) socketlist LAST_ACK else socketlist)
      = countToken (fun name => socket ++ (ascii "_" ++ name)) socketlist LAST_ACK := rfl

theorem hostStep_LISTEN (socket : GoString) (socketlist : GoMap GoString Nat) :
    (if reg LISTEN then hostSwitch (hostSocketCode socket) socketlist LISTEN else socketlist)
      = countToken (fun name => socket ++ (ascii "_" ++ name)) socketlist LISTEN := rfl

theorem hostStep_CLOSING (socket : GoString) (socketlist : GoMap GoString Nat) :
    (if reg CLOSING then hostSwitch (hostSocketCode socket) socketlist CLOSING else socketlist)
      = countToken (fun name => socket ++ (ascii "_" ++ name)) socketlist CLOSING := rfl

theorem hostStep_eq (socket : GoString) (socketlist : GoMap GoString Nat) (tok : GoString) :
    (if reg tok then hostSwitch (hostSocketCode socket) socketlist tok else socketlist)
      = countToken (fun name => socket ++ (ascii "_" ++ name)) socketlist tok := by
  by_cases h : tok ∈ socketCodes
  · simp only [socketCodes, List.mem_cons, List.mem_singleton, List.not_mem_nil, or_false] at h
    rcases h with h | h | h | h | h | h | h | h | h | h | h <;> subst h
    · exact hostStep_ESTABLISHED socket socketlist
    · exact hostStep_SYN_SENT socket socketlist
    · exact hostStep_SYN_RCVD socket socketlist
    · exact hostStep_FIIN_WAIT_1 socket socketlist
    · exact hostStep_FN_WAIT_2 socket socketlist
    · exact hostStep_TIME_WAIT socket socketlist
    · exact hostStep_CLOSE_WAIT socket socketlist
    · exact hostStep_CLOSED socket socketlist
    · exact hostStep_LAST_ACK socket socketlist
    · exact hostStep_LISTEN socket socketlist
    · exact hostStep_CLOSING socket socketlist
  · rw [hostSwitch_none _ _ _ h, ite_self]
    simp only [countToken, codeName_none tok h]

theorem podStep_eq (socketlist : GoMap GoString Nat) (tok : GoString) :
    (if reg tok then podSwitch podSocketCode socketlist tok else socketlist)
      = countToken (fun name => name) socketlist tok := by
  by_cases h : tok ∈ socketCodes
  · simp only [socketCodes, List.mem_cons, List.mem_singleton, List.not_mem_nil, or_false] at h
    rcases h with h | h | h | h | h | h | h | h | h | h | h <;> (subst h; rfl)
  · rw [podSwitch_none _ _ _ h, ite_self]
    simp only [countToken, codeName_none tok h]

theorem hostLine_eq (socket : GoString) (socketlist : GoMap GoString Nat) (line : GoString) :
    hostLine (hostSocketCode socket) socketlist line
      = ((Fields line).take ((Fields line).length / 2)).foldl
          (countToken (fun name => socket ++ (ascii "_" ++ name))) socketlist := by
  unfold hostLine
  simp only [hostStep_eq]

theorem podLine_eq (socketlist : GoMap GoString Nat) (line : GoString) :
    podLine podSocketCode socketlist line
      = ((Fields line).take ((Fields line).length / 2)).foldl
          (countToken (fun name => name)) socketlist := by
  unfold podLine
  simp only [podStep_eq]

theorem get?_renameKeys {V : Type} (f : GoString → GoString) (hf : Function.Injective f)
    (m : GoMap GoString V) (k : GoString) :
    GoMap.get? (renameKeys f m) (f k) = GoMap.get? m k := by
  induction m with
  | nil => rfl
  | cons e rest ih =>
    obtain ⟨a, b⟩ := e
    simp only [renameKeys, List.map_cons, GoMap.get?] at ih ⊢
    by_cases h : a = k
    · subst h; simp
    · have h2 : ¬ f a = f k := fun e => h (hf e)
      simp only [h, h2, if_false]
      exact ih

theorem set_renameKeys {V : Type} (f : GoString → GoString) (hf : Function.Injective f)
    (m : GoMap GoString V) (k : GoString) (v : V) :
    renameKeys f (GoMap.set m k v) = GoMap.set (renameKeys f m) (f k) v := by
  induction m with
  | nil => rfl
  | cons e rest ih =>
    obtain ⟨a, b⟩ := e
    simp only [renameKeys, List.map_cons, GoMap.set] at ih ⊢
    by_cases h : a = k
    · subst h; simp
    · have h2 : ¬ f a = f k := fun e => h (hf e)
      simp only [h, h2, if_false, List.map_cons]
      exact congrArg _ ih

theorem increment_renameKeys (f : GoString → GoString) (hf : Function.Injective f)
    (m : GoMap GoString Nat) (k : GoString) :
    renameKeys f (increment m k) = increment (renameKeys f m) (f k) := by
  unfold increment
  rw [set_renameKeys f hf, GoMap.getD, GoMap.getD, get?_renameKeys f hf]

theorem countToken_renameKeys (f : GoString → GoString) (hf : Function.Injective f)
    (m : GoMap GoString Nat) (tok : GoString) :
    countToken f (renameKeys f m) tok = renameKeys f (countToken (fun name => name) m tok) := by
  unfold countToken
  cases codeName tok with
  | none => rfl
  | some name => exact (increment_renameKeys f hf m name).symm

theorem foldl_countToken_renameKeys (f : GoString → GoString) (hf : Function.Injective f)
    (toks : List GoString) :
    ∀ m : GoMap GoString Nat,
      toks.foldl (countToken f) (renameKeys f m)
        = renameKeys f (toks.foldl (countToken (fun name => name)) m) := by
  induction toks with
  | nil => intro m; rfl
  | cons t toks ih =>
    intro m
    simp only [List.foldl_cons]
    rw [countToken_renameKeys f hf, ih]

theorem keyOf_injective (socket : GoString) :
    Function.Injective (fun name : GoString => socket ++ (ascii "_" ++ name)) := by
  intro a b h
  exact List.append_cancel_left (List.append_cancel_left h)

theorem host_eq_renamed_pod (socket : GoString) (r : List GoString) :
    ∀ m : GoMap GoString Nat,
      r.foldl (hostLine (hostSocketCode socket))
          (renameKeys (fun name => socket ++ (ascii "_" ++ name)) m)
        = renameKeys (fun name => socket ++ (ascii "_" ++ name))
            (r.foldl (podLine podSocketCode) m) := by
  induction r with
  | nil => intro m; rfl
  | cons line r ih =>
    intro m
    simp only [List.foldl_cons]
    rw [hostLine_eq, foldl_countToken_renameKeys _ (keyOf_injective socket), ← podLine_eq, ih]

theorem parseSocketStats_eq_renamed (unicodeUpper : GoString → GoString) (r : Scanner)
    (s : GoString) :
    (parseSocketStats unicodeUpper r s).1
      = renameKeys (fun name => ToUpper unicodeUpper s ++ (ascii "_" ++ name))
          (parsePodSocketStats r).1 := by
  have := host_eq_renamed_pod (ToUpper unicodeUpper s) r.lines []
  simpa [parseSocketStats, parsePodSocketStats, renameKeys] using this

/-- C8. For every input, given by the scanner built on it, and every protocol string `s`,
`parseSocketStats(r, s)` and
`parsePodSocketStats(r)` return the same error status and the same tally up to the key
prefix: the container parser maps a state name to a count exactly when the host parser maps
the upper-cased `s`, "_" and that name to the same count, and the host tally has no other
entry. -/
theorem parsers_agree (unicodeUpper : GoString → GoString) (r : Scanner) (s : GoString) :
    (parseSocketStats unicodeUpper r s).2 = (parsePodSocketStats r).2 ∧
    (∀ name count, GoMap.get? (parsePodSocketStats r).1 name = some count ↔
      GoMap.get? (parseSocketStats unicodeUpper r s).1
        (ToUpper unicodeUpper s ++ ascii "_" ++ name) = some count) ∧
    ∀ key count, GoMap.get? (parseSocketStats unicodeUpper r s).1 key = some count →
      ∃ name, key = ToUpper unicodeUpper s ++ ascii "_" ++ name ∧
        GoMap.get? (parsePodSocketStats r).1 name = some count := by
  refine ⟨rfl, ?_, ?_⟩
  · intro name count
    rw [parseSocketStats_eq_renamed, List.append_assoc,
      get?_renameKeys _ (keyOf_injective (ToUpper unicodeUpper s))]
  · intro key count h
    rw [parseSocketStats_eq_renamed] at h
    have hm := GoMap.mem_of_get? _ _ _ h
    simp only [renameKeys, List.mem_map, Prod.mk.injEq, Prod.exists] at hm
    obtain ⟨name, c, _, hk, hc⟩ := hm
    subst hk hc
    rw [get?_renameKeys _ (keyOf_injective (ToUpper unicodeUpper s))] at h
    exact ⟨name, (List.append_assoc _ _ _).symm, h⟩

theorem foldl_countToken_none (f : GoString → GoString) (toks : List GoString)
    (h : ∀ t ∈ toks, t ∉ socketCodes) :
    ∀ m : GoMap GoString Nat, toks.foldl (countToken f) m = m := by
  induction toks with
  | nil => intro m; rfl
  | cons t toks ih =>
    intro m
    have ht : countToken f m t = m := by
      simp only [countToken, codeName_none t (h t (List.mem_cons_self _ _))]
    simp only [List.foldl_cons, ht]
    exact ih (fun x hx => h x (List.mem_cons_of_mem _ hx)) m

theorem foldl_countToken_single (f : GoString → GoString) (c : GoString) :
    ∀ (toks : List GoString) (k : Nat), toks[k]? = some c →
      (∀ (i : Nat) (t : GoString), toks[i]? = some t → i ≠ k → t ∉ socketCodes) →
      ∀ m : GoMap GoString Nat, toks.foldl (countToken f) m = countToken f m c := by
  intro toks
  induction toks with
  | nil => intro k hk; simp at hk
  | cons a toks ih =>
    intro k hk ho m
    cases k with
    | zero =>
      simp only [List.getElem?_cons_zero, Option.some.injEq] at hk
      subst hk
      simp only [List.foldl_cons]
      apply foldl_countToken_none
      intro t ht
      obtain ⟨i, hi⟩ := List.mem_iff_getElem?.mp ht
      exact ho (i + 1) t (by simpa using hi) (by omega)
    | succ k =>
      have ha : a ∉ socketCodes := ho 0 a (by simp) (by omega)
      have ht : countToken f m a = m := by
        simp only [countToken, codeName_none a ha]
      simp only [List.foldl_cons, ht]
      apply ih k (by simpa using hk)
      intro i t hi hne
      exact ho (i + 1) t (by simpa using hi) (by omega)

theorem parseSocketStats_snoc (unicodeUpper : GoString → GoString) (r : List GoString)
    (line s : GoString) (err : Option GoError) :
    (parseSocketStats unicodeUpper (Scanner.ofLines (r ++ [line]) err) s).1
      = ((Fields line).take ((Fields line).length / 2)).foldl
          (countToken (fun name => ToUpper unicodeUpper s ++ (ascii "_" ++ name)))
          (parseSocketStats unicodeUpper (Scanner.ofLines r err) s).1 := by
  simp only [parseSocketStats, ofLines_lines, List.foldl_append, List.foldl_cons,
    List.foldl_nil]
  exact hostLine_eq _ _ _

theorem take_getElem?_getD (toks : List GoString) (n i : Nat) (t : GoString)
    (h : (toks.take n)[i]? = some t) : i < n ∧ toks.getD i [] = t := by
  have hi : i < n := by
    by_contra hc
    have hlen : (toks.take n).length ≤ i := by
      rw [List.length_take]
      omega
    rw [List.getElem?_eq_none hlen] at h
    exact Option.noConfusion h
  rw [List.getElem?_take, if_pos hi] at h
  exact ⟨hi, by rw [List.getD_eq_getElem?_getD, h]; rfl⟩

/-- C3, as the code has it.  `parseSocketStats` examines the first `n / 2` of the `n`
white-space separated tokens of a line and no fixed position.  For every scanner that
delivers the lines read so far and then one more line: a line whose token at index 3 is "0A",
with `3 < n / 2` and no other of its first `n / 2` tokens one of the eleven codes, adds
exactly one to the tally of the upper-cased protocol followed by "_LISTEN" ("TCP_LISTEN",
"UDP_LISTEN") and changes no other entry; a line none of whose first `n / 2` tokens is one of
the eleven codes, "0C" not being one, changes nothing; the error returned is the error status
of the scanner, the parser adds none of its own. -/
theorem parseSocketStats_line (unicodeUpper : GoString → GoString) (r : List GoString)
    (line s : GoString) (err : Option GoError) :
    ToUpper unicodeUpper TCP = ascii "TCP" ∧ ToUpper unicodeUpper UDP = ascii "UDP" ∧
    ascii "0C" ∉ socketCodes ∧
    (parseSocketStats unicodeUpper (Scanner.ofLines (r ++ [line]) err) s).2 = err ∧
    (3 < (Fields line).length / 2 → (Fields line).getD 3 [] = LISTEN →
      (∀ i, i < (Fields line).length / 2 → i ≠ 3 → (Fields line).getD i [] ∉ socketCodes) →
      ∀ key,
        GoMap.get? (parseSocketStats unicodeUpper (Scanner.ofLines (r ++ [line]) err) s).1 key =
          if key = ToUpper unicodeUpper s ++ ascii "_LISTEN" then
            some (GoMap.getD (parseSocketStats unicodeUpper (Scanner.ofLines r err) s).1 key 0 + 1)
          else GoMap.get? (parseSocketStats unicodeUpper (Scanner.ofLines r err) s).1 key) ∧
    ((∀ i, i < (Fields line).length / 2 → (Fields line).getD i [] ∉ socketCodes) →
      parseSocketStats unicodeUpper (Scanner.ofLines (r ++ [line]) err) s
        = parseSocketStats unicodeUpper (Scanner.ofLines r err) s) := by
  refine ⟨rfl, rfl, by decide, rfl, ?_, ?_⟩
  · intro h3 hl ho key
    have hk : ((Fields line).take ((Fields line).length / 2))[3]? = some LISTEN := by
      rw [List.getElem?_take, if_pos h3]
      have h3' : 3 < (Fields line).length := by omega
      rw [List.getD_eq_getElem?_getD, List.getElem?_eq_getElem h3'] at hl
      rw [List.getElem?_eq_getElem h3']
      exact congrArg some hl
    have hothers : ∀ (i : Nat) (t : GoString),
        ((Fields line).take ((Fields line).length / 2))[i]? = some t → i ≠ 3 →
        t ∉ socketCodes := by
      intro i t hi hne
      obtain ⟨hlt, hget⟩ := take_getElem?_getD _ _ _ _ hi
      rw [← hget]
      exact ho i hlt hne
    rw [parseSocketStats_snoc,
      foldl_countToken_single _ LISTEN _ 3 hk hothers]
    have hc : countToken (fun name => ToUpper unicodeUpper s ++ (ascii "_" ++ name))
        (parseSocketStats unicodeUpper (Scanner.ofLines r err) s).1 LISTEN
        = increment (parseSocketStats unicodeUpper (Scanner.ofLines r err) s).1
            (ToUpper unicodeUpper s ++ ascii "_LISTEN") := rfl
    rw [hc, increment, GoMap.get?_set]
    by_cases hkey : key = ToUpper unicodeUpper s ++ ascii "_LISTEN"
    · subst hkey
      simp
    · have hkey2 : ¬ ToUpper unicodeUpper s ++ ascii "_LISTEN" = key := fun e => hkey e.symm
      simp only [hkey, hkey2, if_false]
  · intro ho
    have hnone : ∀ t ∈ (Fields line).take ((Fields line).length / 2), t ∉ socketCodes := by
      intro t ht
      obtain ⟨i, hi⟩ := List.mem_iff_getElem?.mp ht
      obtain ⟨hlt, hget⟩ := take_getElem?_getD _ _ _ _ hi
      rw [← hget]
      exact ho i hlt
    have h1 := parseSocketStats_snoc unicodeUpper r line s err
    rw [foldl_countToken_none _ _ hnone] at h1
    exact Prod.ext h1 rfl

/-- Instance of C3 on lines of `/proc/net/tcp`: a listening socket after the header line
adds one to "TCP_LISTEN"; a line with the state "0C" changes nothing. -/
theorem parseSocketStats_line_witness :
    (∀ key,
      GoMap.get? (parseSocketStats id (Scanner.ofLines ([tcpHeaderLine] ++ [tcpLine "0A"]) none)
          TCP).1 key =
        if key = ToUpper id TCP ++ ascii "_LISTEN" then
          some (GoMap.getD (parseSocketStats id (Scanner.ofLines [tcpHeaderLine] none) TCP).1
            key 0 + 1)
        else GoMap.get? (parseSocketStats id (Scanner.ofLines [tcpHeaderLine] none) TCP).1 key) ∧
    parseSocketStats id (Scanner.ofLines ([tcpHeaderLine] ++ [tcpLine "0C"]) none) TCP
      = parseSocketStats id (Scanner.ofLines [tcpHeaderLine] none) TCP :=
  ⟨(parseSocketStats_line id [tcpHeaderLine] (tcpLine "0A") TCP none).2.2.2.2.1
      (by decide) (by decide) (by decide),
    (parseSocketStats_line id [tcpHeaderLine] (tcpLine "0C") TCP none).2.2.2.2.2 (by decide)⟩

/-- C3 fails as stated: a line of four tokens with "0A" at index 3 is not counted, and a line
of eight tokens with "0A" at index 3 and "01" at index 0 adds to two entries. -/
theorem parseSocketStats_position :
    (parseSocketStats id (NewScanner (ascii "0: 0100007F:0019 00000000:0000 0A\n")) TCP).1
      = [] ∧
    (parseSocketStats id
        (NewScanner (ascii "01 0100007F:0019 00000000:0000 0A 0:0 00:0 0 0\n")) TCP).1
      = [(ascii "TCP_ESTABLISHED", 1), (ascii "TCP_LISTEN", 1)] :=
  ⟨by decide, by decide⟩

/-- C4 on the code: a socket line with the state code "08" is counted under "CLOSED" and one
with "07" under "CLOSE_WAIT", by the host parser and by the container parser; the lines are
those the scanner delivers for the text of each line ended by a newline. -/
theorem socketCode_07_08 :
    (parseSocketStats id (Scanner.ofLines [tcpLine "08"] none) TCP).1
      = [(ascii "TCP_CLOSED", 1)] ∧
    (parseSocketStats id (Scanner.ofLines [tcpLine "07"] none) TCP).1
      = [(ascii "TCP_CLOSE_WAIT", 1)] ∧
    (parsePodSocketStats (Scanner.ofLines [tcpLine "08"] none)).1 = [(ascii "CLOSED", 1)] ∧
    (parsePodSocketStats (Scanner.ofLines [tcpLine "07"] none)).1 = [(ascii "CLOSE_WAIT", 1)] ∧
    NewScanner (joinLines [tcpLine "08"]) = Scanner.ofLines [tcpLine "08"] none ∧
    NewScanner (joinLines [tcpLine "07"]) = Scanner.ofLines [tcpLine "07"] none :=
  ⟨by decide, by decide, by decide, by decide,
    NewScanner_of_lines [tcpLine "08"] (by
      intro l hl
      rw [List.mem_singleton] at hl
      subst hl
      refine ⟨by decide, by decide, ?_⟩
      rw [tcpLine, ascii_length]
      simp only [String.data_append, List.length_append]
      decide),
    NewScanner_of_lines [tcpLine "07"] (by
      intro l hl
      rw [List.mem_singleton] at hl
      subst hl
      refine ⟨by decide, by decide, ?_⟩
      rw [tcpLine, ascii_length]
      simp only [String.data_append, List.length_append]
      decide)⟩

/-- A text whose first line does not fit the buffer of the scanner: both socket parsers
return the error `bufio.ErrTooLong`, which is the error status of the scanner. -/
theorem parseSocketStats_tooLong (unicodeUpper : GoString → GoString) (text s : GoString)
    (hnl : 0x0A ∉ text.take MaxScanTokenSize) (hlen : MaxScanTokenSize ≤ text.length) :
    (parseSocketStats unicodeUpper (NewScanner text) s).2 = some .tooLong ∧
    (parsePodSocketStats (NewScanner text)).2 = some .tooLong := by
  have h := NewScanner_tooLong [] text [] (by simp) hnl hlen
  simp only [joinLines, List.nil_append, List.append_nil] at h
  simp only [parseSocketStats, parsePodSocketStats, h]
  exact ⟨trivial, trivial⟩

/-! ## The per-container collector -/

theorem runTasks_mem (docker : DockerClient) (fs : FileSystem) (namespace_ : GoString)
    (containers : List Container) (x : Metric) :
    x ∈ runTasks docker fs namespace_ containers ↔
      ∃ c ∈ containers, ∃ ms, getPodTask docker fs namespace_ c = some ms ∧ x ∈ ms := by
  induction containers with
  | nil => simp [runTasks]
  | cons c rest ih =>
    simp only [runTasks, List.mem_append, ih, List.mem_cons, exists_eq_or_imp]
    cases getPodTask docker fs namespace_ c <;> simp

/-- C7. For every list of containers, every inspect oracle and every state of the file
system: `Update` returns no error and sends exactly the metrics of the tasks of the
containers; the task of a container whose inspect call fails sends no metric, whatever files
exist, and so does the task of a container whose ID has less than 10 bytes or whose inspect
result has no state; the task of a container that is inspected sends exactly the metrics of
the tally parsed from the socket table of its own process id, labelled with its own display
name with "/" removed, and nothing when that table cannot be opened. -/
theorem netstatPodUpdate_isolation (docker : DockerClient) (fs : FileSystem)
    (namespace_ : GoString) (containers : List Container)
    (hlist : docker.ContainerList.1 = some containers) :
    (netstatPodUpdate docker fs namespace_).2 = none ∧
    (∀ x, x ∈ (netstatPodUpdate docker fs namespace_).1 ↔
      ∃ c ∈ containers, ∃ ms, getPodTask docker fs namespace_ c = some ms ∧ x ∈ ms) ∧
    (∀ c ∈ containers, ∀ e, docker.ContainerInspect (c.ID.take 10) = .error e →
      getPodTask docker fs namespace_ c = none) ∧
    (∀ c ∈ containers,
      (c.ID.length < 10 ∨ docker.ContainerInspect (c.ID.take 10) = .ok ⟨none⟩ ∨
        ∃ name, docker.ContainerInspect (c.ID.take 10) = .ok ⟨some ⟨name, none⟩⟩) →
      getPodTask docker fs namespace_ c = none) ∧
    ∀ c ∈ containers, ∀ base state, 10 ≤ c.ID.length →
      docker.ContainerInspect (c.ID.take 10) = .ok ⟨some base⟩ → base.State = some state →
      ∃ ms, getPodTask docker fs namespace_ c = some ms ∧
        (fs (pidPath state.Pid) = none → ms = []) ∧
        ∀ r, fs (pidPath state.Pid) = some r →
          ms = (parsePodSocketStats r).1.map (fun kv => podMetric namespace_ base.Name kv.1 kv.2) := by
  refine ⟨rfl, ?_, ?_, ?_, ?_⟩
  · intro x
    simp only [netstatPodUpdate, getPodSocketStatus, hlist]
    exact runTasks_mem docker fs namespace_ containers x
  · intro c _ e he
    unfold getPodTask
    split
    · rfl
    · simp [he, ContainerJSON.zero]
  · intro c _ hc
    unfold getPodTask
    split
    · rfl
    · rcases hc with h | h | ⟨name, h⟩
      · omega
      · simp [h]
      · simp [h]
  · intro c _ base state hid hok hstate
    have hlen : ¬ c.ID.length < 10 := by omega
    have e : getPodTask docker fs namespace_ c
        = some (((getPodSocketStats fs (pidPath state.Pid)).1.getD []).map
            (fun kv => podMetric namespace_ base.Name kv.1 kv.2)) := by
      simp only [getPodTask, hlen, if_false, hok, hstate]
    refine ⟨_, e, ?_, ?_⟩
    · intro hnone
      simp [getPodSocketStats, hnone]
    · intro r hr
      simp [getPodSocketStats, hr]

/-- Instance of C7: three containers, the inspect call of the second fails; the metrics sent
are the tally of the first, the third has no socket table that can be opened. -/
theorem netstatPodUpdate_isolation_witness :
    ((netstatPodUpdate sampleDocker sampleFiles (ascii "node")).2 = none ∧
      (∀ x, x ∈ (netstatPodUpdate sampleDocker sampleFiles (ascii "node")).1 ↔
        ∃ c ∈ sampleContainers, ∃ ms,
          getPodTask sampleDocker sampleFiles (ascii "node") c = some ms ∧ x ∈ ms) ∧
      (∀ c ∈ sampleContainers, ∀ e, sampleDocker.ContainerInspect (c.ID.take 10) = .error e →
        getPodTask sampleDocker sampleFiles (ascii "node") c = none) ∧
      (∀ c ∈ sampleContainers,
        (c.ID.length < 10 ∨ sampleDocker.ContainerInspect (c.ID.take 10) = .ok ⟨none⟩ ∨
          ∃ name, sampleDocker.ContainerInspect (c.ID.take 10) = .ok ⟨some ⟨name, none⟩⟩) →
        getPodTask sampleDocker sampleFiles (ascii "node") c = none) ∧
      ∀ c ∈ sampleContainers, ∀ base state, 10 ≤ c.ID.length →
        sampleDocker.ContainerInspect (c.ID.take 10) = .ok ⟨some base⟩ →
        base.State = some state →
        ∃ ms, getPodTask sampleDocker sampleFiles (ascii "node") c = some ms ∧
          (sampleFiles (pidPath state.Pid) = none → ms = []) ∧
          ∀ r, sampleFiles (pidPath state.Pid) = some r →
            ms = (parsePodSocketStats r).1.map
              (fun kv => podMetric (ascii "node") base.Name kv.1 kv.2)) ∧
    netstatPodUpdate sampleDocker sampleFiles (ascii "node")
      = ([⟨ascii "node_netstat_pod_LISTEN", ascii "pods netstats: number of LISTEN.",
          [(ascii "pod_name", ascii "web")], float64 1⟩], none) ∧
    getPodTask sampleDocker sampleFiles (ascii "node") ⟨ascii "bbbbbbbbbbbb0002"⟩ = none :=
  ⟨netstatPodUpdate_isolation sampleDocker sampleFiles (ascii "node") sampleContainers rfl,
    by decide, by decide⟩

/-! ## The GPU collector -/

/-- C9 on the code.  The collector built by `newGpuCollector` has a nil logger, so every
failure branch of `Update` panics in its logging call: a failed device count panics instead
of returning the error, and a failed label or reading of one device panics after the
device-count gauge was sent, before any per-device gauge of any device is collected. -/
theorem gpuUpdate_nil_logger (logger : Logger) :
    (newGpuCollector logger).logger = none ∧
    gpuUpdate brokenNvml (newGpuCollector logger) = .panic [] ∧
    gpuUpdate noTemperatureNvml (newGpuCollector logger)
      = .panic [numDevicesMetric (float64 1)] ∧
    gpuUpdate sampleNvml (newGpuCollector logger) = .panic [numDevicesMetric (float64 3)] :=
  ⟨rfl, rfl, rfl, rfl⟩

theorem logError_some (c : gpuCollector) (lg : Logger) (h : c.logger = some lg) :
    logError c = some c := by
  simp [logError, h]

theorem deviceReadings_vec (dev : Device) (lvs : List GoString) (c : gpuCollector)
    (lg : Logger) (hlog : c.logger = some lg) (m : Reading) :
    (deviceReadings dev lvs c).map (fun c2 => (c2.logger, m.vec c2))
      = some (some lg,
          match m.retrieve dev with
          | .ok v => (m.vec c).Set lvs (float64 (Int.ofNat v))
          | .error _ => m.vec c) := by
  cases m <;> cases h1 : dev.MemoryInfo <;> cases h2 : dev.UtilizationRates <;>
    cases h3 : dev.PowerUsage <;> cases h4 : dev.Temperature <;> cases h5 : dev.FanSpeed <;>
    simp [deviceReadings, logError, hlog, Reading.retrieve, Reading.vec, Except.map,
      h1, h2, h3, h4, h5]

theorem deviceStep_vec (nvml : Gonvml) (c : gpuCollector) (lg : Logger)
    (hlog : c.logger = some lg) (i : Nat) (m : Reading) :
    (deviceStep nvml c i).map (fun c2 => (c2.logger, m.vec c2))
      = some (some lg,
          match gaugeOf nvml m i with
          | some g => (m.vec c).Set g.1 g.2
          | none => m.vec c) := by
  unfold deviceStep gaugeOf deviceLabels
  cases h0 : nvml.DeviceHandleByIndex i with
  | error e => simp [logError, hlog]
  | ok dev =>
    cases h1 : dev.MinorNumber <;> cases h2 : dev.UUID <;> cases h3 : dev.Name <;>
      cases h4 : m.retrieve dev <;>
      simp [h1, h2, h3, h4, logError, hlog, deviceReadings_vec _ _ _ lg hlog]

theorem deviceStep_some (nvml : Gonvml) (c : gpuCollector) (lg : Logger)
    (hlog : c.logger = some lg) (i : Nat) :
    ∃ c2, deviceStep nvml c i = some c2 ∧ c2.logger = some lg ∧
      ∀ m : Reading, m.vec c2
        = match gaugeOf nvml m i with
          | some g => (m.vec c).Set g.1 g.2
          | none => m.vec c := by
  cases hs : deviceStep nvml c i with
  | none =>
    have := deviceStep_vec nvml c lg hlog i .usedMemory
    rw [hs] at this
    exact Option.noConfusion this
  | some c2 =>
    refine ⟨c2, rfl, ?_, ?_⟩
    · have := deviceStep_vec nvml c lg hlog i .usedMemory
      rw [hs] at this
      simp only [Option.map_some', Option.some.injEq, Prod.mk.injEq] at this
      exact this.1
    · intro m
      have := deviceStep_vec nvml c lg hlog i m
      rw [hs] at this
      simp only [Option.map_some', Option.some.injEq, Prod.mk.injEq] at this
      exact this.2

theorem deviceLoop_vec (nvml : Gonvml) (lg : Logger) (is : List Nat) :
    ∀ c : gpuCollector, c.logger = some lg →
      ∃ c2, deviceLoop nvml is c = some c2 ∧ ∀ m : Reading,
        (m.vec c2).name = (m.vec c).name ∧ (m.vec c2).help = (m.vec c).help ∧
        (m.vec c2).gauges = is.foldl (recordGauge (gaugeOf nvml m)) (m.vec c).gauges := by
  induction is with
  | nil => intro c _; exact ⟨c, rfl, fun m => ⟨rfl, rfl, rfl⟩⟩
  | cons i is ih =>
    intro c hlog
    obtain ⟨c1, h1, hl1, hv1⟩ := deviceStep_some nvml c lg hlog i
    obtain ⟨c2, h2, hv2⟩ := ih c1 hl1
    refine ⟨c2, by simp only [deviceLoop, h1, h2], ?_⟩
    intro m
    obtain ⟨hn, hh, hg⟩ := hv2 m
    rw [hn, hh, hg, hv1 m]
    simp only [List.foldl_cons]
    unfold recordGauge
    cases gaugeOf nvml m i <;> simp [GaugeVec.Set]

theorem foldl_set_mem {K V : Type} [DecidableEq K] (g : Nat → Option (K × V)) :
    ∀ n : Nat,
      (∀ i, i < n → ∀ j, j < n → i ≠ j → ∀ a b, g i = some a → g j = some b → a.1 ≠ b.1) →
      (GoMap.keys ((List.range n).foldl (recordGauge g) ([] : GoMap K V))).Nodup ∧
      ∀ x, x ∈ (List.range n).foldl (recordGauge g) ([] : GoMap K V) ↔
        ∃ i, i < n ∧ g i = some x := by
  intro n
  induction n with
  | zero => intro _; simp [GoMap.keys]
  | succ n ih =>
    intro hd
    obtain ⟨hnd, hmem⟩ := ih (fun i hi j hj => hd i (by omega) j (by omega))
    rw [List.range_succ, List.foldl_append]
    simp only [List.foldl_cons, List.foldl_nil]
    rw [recordGauge]
    cases hg : g n with
    | none =>
      refine ⟨hnd, fun x => ?_⟩
      rw [hmem]
      constructor
      · rintro ⟨i, hi, e⟩
        exact ⟨i, by omega, e⟩
      · rintro ⟨i, hi, e⟩
        have hne : i ≠ n := by
          rintro rfl
          rw [hg] at e
          exact Option.noConfusion e
        exact ⟨i, by omega, e⟩
    | some e =>
      refine ⟨GoMap.nodup_keys_set _ _ _ hnd, fun x => ?_⟩
      simp only []
      rw [mem_set_iff _ hnd, hmem]
      constructor
      · rintro (h | ⟨⟨i, hi, hx⟩, _⟩)
        · exact ⟨n, by omega, by rw [hg, h]⟩
        · exact ⟨i, by omega, hx⟩
      · rintro ⟨i, hi, hx⟩
        by_cases hin : i = n
        · subst hin
          rw [hg] at hx
          left
          cases hx
          rfl
        · right
          exact ⟨⟨i, by omega, hx⟩, hd i (by omega) n (by omega) hin x e hx hg⟩

theorem gaugeOf_eq_some (nvml : Gonvml) (m : Reading) (i : Nat) (lvs : List GoString)
    (x : GoFloat) :
    gaugeOf nvml m i = some (lvs, x) ↔
      ∃ dev minorNumber uuid name v, nvml.DeviceHandleByIndex i = .ok dev ∧
        dev.MinorNumber = .ok minorNumber ∧ dev.UUID = .ok uuid ∧ dev.Name = .ok name ∧
        m.retrieve dev = .ok v ∧ lvs = [Itoa (toInt minorNumber), uuid, name] ∧
        x = float64 (Int.ofNat v) := by
  unfold gaugeOf deviceLabels
  cases h0 : nvml.DeviceHandleByIndex i with
  | error e => simp
  | ok dev =>
    cases h1 : dev.MinorNumber <;> cases h2 : dev.UUID <;> cases h3 : dev.Name <;>
      cases h4 : m.retrieve dev <;> simp [h1, h2, h3, h4]
    constructor
    · rintro ⟨h, rfl⟩
      exact ⟨h.symm, rfl⟩
    · rintro ⟨rfl, h⟩
      exact ⟨rfl, h.symm⟩

theorem gaugeOf_labels (nvml : Gonvml) (m : Reading) (i : Nat) (e : List GoString × GoFloat)
    (h : gaugeOf nvml m i = some e) : labelsOf nvml i = some e.1 := by
  unfold gaugeOf at h
  unfold labelsOf
  cases hl : deviceLabels nvml i with
  | none => simp [hl] at h
  | some p =>
    obtain ⟨dev, lvs⟩ := p
    simp only [hl] at h
    cases hr : m.retrieve dev with
    | error _ => simp [hr] at h
    | ok v =>
      simp only [hr, Option.some.injEq] at h
      subst h
      rfl

theorem metric_congr (vec vec2 : GaugeVec) (hn : vec.name = vec2.name) (hh : vec.help = vec2.help)
    (lvs : List GoString) (v : GoFloat) : vec.metric lvs v = vec2.metric lvs v := by
  simp [GaugeVec.metric, hn, hh]

theorem collect_mem (nvml : Gonvml) (m : Reading) (n : Nat) (c2 : gpuCollector) (vec : GaugeVec)
    (hname : (m.vec c2).name = vec.name) (hhelp : (m.vec c2).help = vec.help)
    (hg : (m.vec c2).gauges = (List.range n).foldl (recordGauge (gaugeOf nvml m)) [])
    (hdist : ∀ i, i < n → ∀ j, j < n → i ≠ j →
      labelsOf nvml i = none ∨ labelsOf nvml i ≠ labelsOf nvml j) (x : Metric) :
    x ∈ (m.vec c2).Collect ↔
      ∃ i dev minorNumber uuid name v, i < n ∧ nvml.DeviceHandleByIndex i = .ok dev ∧
        dev.MinorNumber = .ok minorNumber ∧ dev.UUID = .ok uuid ∧ dev.Name = .ok name ∧
        m.retrieve dev = .ok v ∧
        x = vec.metric [Itoa (toInt minorNumber), uuid, name] (float64 (Int.ofNat v)) := by
  have hd : ∀ i, i < n → ∀ j, j < n → i ≠ j → ∀ a b, gaugeOf nvml m i = some a →
      gaugeOf nvml m j = some b → a.1 ≠ b.1 := by
    intro i hi j hj hij a b ha hb hab
    have la := gaugeOf_labels nvml m i a ha
    have lb := gaugeOf_labels nvml m j b hb
    rcases hdist i hi j hj hij with h | h
    · rw [la] at h
      exact Option.noConfusion h
    · exact h (by rw [la, lb, hab])
  obtain ⟨_, hmem⟩ := foldl_set_mem (gaugeOf nvml m) n hd
  have hmetric : ∀ lvs v, (m.vec c2).metric lvs v = vec.metric lvs v :=
    fun lvs v => metric_congr _ _ hname hhelp lvs v
  simp only [GaugeVec.Collect, List.mem_map, hg, hmem, hmetric, Prod.exists, gaugeOf_eq_some]
  constructor
  · rintro ⟨lvs, v, ⟨i, hi, dev, mn, uuid, name, w, h0, h1, h2, h3, h4, rfl, rfl⟩, rfl⟩
    exact ⟨i, dev, mn, uuid, name, w, hi, h0, h1, h2, h3, h4, rfl⟩
  · rintro ⟨i, dev, mn, uuid, name, w, hi, h0, h1, h2, h3, h4, rfl⟩
    exact ⟨_, _, ⟨i, hi, dev, mn, uuid, name, w, h0, h1, h2, h3, h4, rfl, rfl⟩, rfl⟩

theorem deviceReadings_numDevices (dev : Device) (lvs : List GoString) (c : gpuCollector)
    (lg : Logger) (hlog : c.logger = some lg) :
    (deviceReadings dev lvs c).map (fun c2 => c2.numDevices) = some c.numDevices := by
  cases h1 : dev.MemoryInfo <;> cases h2 : dev.UtilizationRates <;>
    cases h3 : dev.PowerUsage <;> cases h4 : dev.Temperature <;> cases h5 : dev.FanSpeed <;>
    simp [deviceReadings, logError, hlog, h1, h2, h3, h4, h5]

theorem deviceStep_numDevices (nvml : Gonvml) (c : gpuCollector) (lg : Logger)
    (hlog : c.logger = some lg) (i : Nat) :
    (deviceStep nvml c i).map (fun c2 => c2.numDevices) = some c.numDevices := by
  unfold deviceStep
  cases h0 : nvml.DeviceHandleByIndex i with
  | error e => simp [logError, hlog]
  | ok dev =>
    cases h1 : dev.MinorNumber <;> cases h2 : dev.UUID <;> cases h3 : dev.Name <;>
      simp [h1, h2, h3, logError, hlog, deviceReadings_numDevices _ _ _ lg hlog]

theorem deviceLoop_numDevices (nvml : Gonvml) (lg : Logger) (is : List Nat) :
    ∀ c c2 : gpuCollector, c.logger = some lg → deviceLoop nvml is c = some c2 →
      c2.numDevices = c.numDevices := by
  induction is with
  | nil =>
    intro c c2 _ h
    simp only [deviceLoop, Option.some.injEq] at h
    rw [h]
  | cons i is ih =>
    intro c c2 hlog h
    obtain ⟨c1, h1, hl1, _⟩ := deviceStep_some nvml c lg hlog i
    have hn := deviceStep_numDevices nvml c lg hlog i
    rw [h1] at hn
    simp only [Option.map_some', Option.some.injEq] at hn
    simp only [deviceLoop, h1] at h
    rw [ih c1 c2 hl1 h, hn]

/-- The behaviour of `gpuCollector.Update` for a collector that holds a logger.  When the
device count fails, `Update` returns that error and sends nothing.  When it succeeds with
devices whose label triples (minor number, UUID, name) are pairwise distinct, `Update`
returns no error and sends the device-count gauge followed by the gauges of the six vectors,
and the gauge of a reading is sent for a device if and only if the handle, the minor number,
the UUID and the name of the device and the retrieval that yields the reading all succeed. -/
theorem gpuUpdate_with_logger (nvml : Gonvml) (c : gpuCollector) (lg : Logger)
    (hlog : c.logger = some lg) :
    (∀ err, nvml.DeviceCount = .error err → ∃ c2, gpuUpdate nvml c = .ret c2 [] (some err)) ∧
    ∀ n, nvml.DeviceCount = .ok n →
      (∀ i, i < (toInt n).toNat → ∀ j, j < (toInt n).toNat → i ≠ j →
        labelsOf nvml i = none ∨ labelsOf nvml i ≠ labelsOf nvml j) →
      ∃ c2,
        gpuUpdate nvml c = .ret c2 (numDevicesMetric (float64 (Int.ofNat n)) ::
          (c2.usedMemory.Collect ++ c2.totalMemory.Collect ++ c2.dutyCycle.Collect ++
            c2.powerUsage.Collect ++ c2.temperature.Collect ++ c2.fanSpeed.Collect)) none ∧
        ∀ (m : Reading) (x : Metric), x ∈ (m.vec c2).Collect ↔
          ∃ i dev minorNumber uuid name v, i < (toInt n).toNat ∧
            nvml.DeviceHandleByIndex i = .ok dev ∧
            dev.MinorNumber = .ok minorNumber ∧ dev.UUID = .ok uuid ∧ dev.Name = .ok name ∧
            m.retrieve dev = .ok v ∧
            x = (m.vec c).metric [Itoa (toInt minorNumber), uuid, name]
              (float64 (Int.ofNat v)) := by
  constructor
  · intro err herr
    simp only [gpuUpdate, herr, logError, hlog]
    exact ⟨_, rfl⟩
  · intro n hcount hdist
    obtain ⟨c2, hloop, hv⟩ := deviceLoop_vec nvml lg (List.range (toInt n).toNat)
      { numDevices := float64 (Int.ofNat n), usedMemory := c.usedMemory.Reset,
        totalMemory := c.totalMemory.Reset, dutyCycle := c.dutyCycle.Reset,
        powerUsage := c.powerUsage.Reset, temperature := c.temperature.Reset,
        fanSpeed := c.fanSpeed.Reset, logger := c.logger } hlog
    refine ⟨c2, ?_, ?_⟩
    · have hnum := deviceLoop_numDevices nvml lg _ _ c2 (by exact hlog) hloop
      simp only [gpuUpdate, hcount, hloop, hnum]
    · intro m x
      obtain ⟨hn, hh, hg⟩ := hv m
      apply collect_mem nvml m (toInt n).toNat c2 (m.vec c) _ _ _ hdist x
      · rw [hn]; cases m <;> rfl
      · rw [hh]; cases m <;> rfl
      · rw [hg]; cases m <;> rfl

/-- Instance of `gpuUpdate_with_logger`: with a logger stored, a failed device count is
returned as the error, and with three devices of which device 1 has no name and device 2 no
temperature `Update` returns no error and sends exactly the gauges that were retrieved. -/
theorem gpuUpdate_with_logger_sample :
    (∃ c2, gpuUpdate brokenNvml (loggingCollector ⟨0⟩) = .ret c2 [] (some (.external 9))) ∧
    ∃ c2,
      gpuUpdate sampleNvml (loggingCollector ⟨0⟩)
        = .ret c2 (numDevicesMetric (float64 (Int.ofNat 3)) ::
          (c2.usedMemory.Collect ++ c2.totalMemory.Collect ++ c2.dutyCycle.Collect ++
            c2.powerUsage.Collect ++ c2.temperature.Collect ++ c2.fanSpeed.Collect)) none ∧
      ∀ (m : Reading) (x : Metric), x ∈ (m.vec c2).Collect ↔
        ∃ i dev minorNumber uuid name v, i < (toInt 3).toNat ∧
          sampleNvml.DeviceHandleByIndex i = .ok dev ∧
          dev.MinorNumber = .ok minorNumber ∧ dev.UUID = .ok uuid ∧ dev.Name = .ok name ∧
          m.retrieve dev = .ok v ∧
          x = (m.vec (loggingCollector ⟨0⟩)).metric [Itoa (toInt minorNumber), uuid, name]
            (float64 (Int.ofNat v)) :=
  ⟨(gpuUpdate_with_logger brokenNvml (loggingCollector ⟨0⟩) ⟨0⟩ rfl).1 (.external 9) rfl,
    (gpuUpdate_with_logger sampleNvml (loggingCollector ⟨0⟩) ⟨0⟩ rfl).2 3 rfl (by
      intro i hi j hj hij
      replace hi : i < 3 := hi
      replace hj : j < 3 := hj
      interval_cases i <;> interval_cases j <;> first | exact absurd rfl hij | decide)⟩

end Collector
